import Mathlib

/-!
# Verification of the Enju HTLC escrow engine

Shallow embedding of the two NEAR contracts of the repository
(`src/near-contracts/htlc-near/src/lib.rs` and
`src/near-contracts/fusion-htlc/src/lib.rs`) and proofs about them.

Contract state is embedded as records of association lists (mirroring the
`UnorderedMap` fields), every public method as a pure function from the
pre-state and the call environment (`predecessor_account_id`,
`attached_deposit`, `block_timestamp`) to `Except String (state × transfers)`.
A NEAR panic (`assert!` / `require!` / `expect`) aborts the whole function
call and the runtime reverts every state write of that call, so a panic is
embedded as `Except.error msg` leaving the pre-state untouched.
`Promise::new(to).transfer(amount)` calls are recorded in an explicit
transfer log, tagged with the store and the record id whose operation
produced them.
-/

namespace Enju

/-! ## Association-list maps (embedding of `near_sdk::collections::UnorderedMap`) -/

/-- Lookup in an association list; the head entry shadows later ones,
matching `UnorderedMap::get`. -/
def mlookup {α : Type} (m : List (String × α)) (k : String) : Option α :=
  match m with
  | [] => none
  | (k', v) :: rest => if k = k' then some v else mlookup rest k

/-- `UnorderedMap::insert` (inserts or overwrites): new binding shadows any
older binding for the same key. -/
def minsert {α : Type} (m : List (String × α)) (k : String) (v : α) :
    List (String × α) :=
  (k, v) :: m

/-- `UnorderedMap::remove`: drop every binding for the key. -/
def mremove {α : Type} (m : List (String × α)) (k : String) :
    List (String × α) :=
  m.filter (fun p => ¬ (p.1 = k))

@[simp] theorem mlookup_nil {α : Type} (k : String) :
    mlookup ([] : List (String × α)) k = none := rfl

@[simp] theorem mlookup_minsert_self {α : Type}
    (m : List (String × α)) (k : String) (v : α) :
    mlookup (minsert m k v) k = some v := by
  simp [minsert, mlookup]

theorem mlookup_minsert {α : Type} (m : List (String × α)) (k k' : String)
    (v : α) :
    mlookup (minsert m k v) k' = if k' = k then some v else mlookup m k' := by
  simp [minsert, mlookup]

theorem mlookup_minsert_ne {α : Type} (m : List (String × α)) (k k' : String)
    (v : α) (h : k' ≠ k) :
    mlookup (minsert m k v) k' = mlookup m k' := by
  simp [mlookup_minsert, h]

theorem mlookup_mremove {α : Type} (m : List (String × α)) (k k' : String) :
    mlookup (mremove m k) k' = if k' = k then none else mlookup m k' := by
  induction m with
  | nil => simp [mremove, mlookup]
  | cons p rest ih =>
    obtain ⟨pk, pv⟩ := p
    by_cases hpk : pk = k
    · subst hpk
      by_cases hk : k' = pk
      · subst hk
        simp [mremove, mlookup] at ih ⊢
        simpa [mremove] using ih
      · simp [mremove, mlookup, hk] at ih ⊢
        simpa [mremove, hk] using ih
    · by_cases hk : k' = pk
      · subst hk
        simp [mremove, mlookup, hpk]
      · simp [mremove, mlookup, hpk, hk] at ih ⊢
        simpa [mremove, hk] using ih

/-! ## SHA-256 (embedding of `sha2::Sha256::digest`)

A direct executable implementation over byte lists (`List Nat`, each entry
`< 256`), used by both contracts for commitment verification and id
generation. -/

/-- 32-bit rotate right. -/
def rotr (n x : Nat) : Nat :=
  ((x >>> n) ||| (x <<< (32 - n))) % 4294967296

/-- Addition mod 2^32. -/
def add32 (a b : Nat) : Nat := (a + b) % 4294967296

/-- The 64 SHA-256 round constants. -/
def shaK : List Nat :=
  [1116352408, 1899447441, 3049323471, 3921009573,
   961987163, 1508970993, 2453635748, 2870763221,
   3624381080, 310598401, 607225278, 1426881987,
   1925078388, 2162078206, 2614888103, 3248222580,
   3835390401, 4022224774, 264347078, 604807628,
   770255983, 1249150122, 1555081692, 1996064986,
   2554220882, 2821834349, 2952996808, 3210313671,
   3336571891, 3584528711, 113926993, 338241895,
   666307205, 773529912, 1294757372, 1396182291,
   1695183700, 1986661051, 2177026350, 2456956037,
   2730485921, 2820302411, 3259730800, 3345764771,
   3516065817, 3600352804, 4094571909, 275423344,
   430227734, 506948616, 659060556, 883997877,
   958139571, 1322822218, 1537002063, 1747873779,
   1955562222, 2024104815, 2227730452, 2361852424,
   2428436474, 2756734187, 3204031479, 3329325298]

/-- Working state: eight 32-bit words. -/
structure ShaState where
  a : Nat
  b : Nat
  c : Nat
  d : Nat
  e : Nat
  f : Nat
  g : Nat
  hh : Nat
deriving Repr, DecidableEq

/-- Initial hash value. -/
def shaInit : ShaState :=
  ⟨1779033703, 3144134277, 1013904242, 2773480762,
   1359893119, 2600822924, 528734635, 1541459225⟩

/-- Pad a byte message to a multiple of 64 bytes (the SHA-256 padding). -/
def shaPad (msg : List Nat) : List Nat :=
  let len := msg.length
  let zeros := (55 + 64 - (len % 64)) % 64
  let bitLen := len * 8
  msg ++ [0x80] ++ List.replicate zeros 0 ++
    [(bitLen >>> 56) % 256, (bitLen >>> 48) % 256, (bitLen >>> 40) % 256,
     (bitLen >>> 32) % 256, (bitLen >>> 24) % 256, (bitLen >>> 16) % 256,
     (bitLen >>> 8) % 256, bitLen % 256]

/-- Big-endian 32-bit words from bytes. -/
def toWords (l : List Nat) : List Nat :=
  match l with
  | b0 :: b1 :: b2 :: b3 :: rest =>
      (b0 * 16777216 + b1 * 65536 + b2 * 256 + b3) :: toWords rest
  | _ => []

/-- One extension word of the message schedule from the last 16 words. -/
def nextWord (w : List Nat) : Nat :=
  let n := w.length
  let w15 := w.getD (n - 15) 0
  let w2 := w.getD (n - 2) 0
  let w16 := w.getD (n - 16) 0
  let w7 := w.getD (n - 7) 0
  let s0 := (rotr 7 w15) ^^^ (rotr 18 w15) ^^^ (w15 >>> 3)
  let s1 := (rotr 17 w2) ^^^ (rotr 19 w2) ^^^ (w2 >>> 10)
  add32 (add32 w16 s0) (add32 w7 s1)

/-- Extend the 16-word schedule to 64 words. -/
def extendWords (w : List Nat) : Nat → List Nat
  | 0 => w
  | n + 1 => extendWords (w ++ [nextWord w]) n

/-- One compression round. -/
def shaRound (st : ShaState) (kw : Nat × Nat) : ShaState :=
  let s1 := (rotr 6 st.e) ^^^ (rotr 11 st.e) ^^^ (rotr 25 st.e)
  let ch := (st.e &&& st.f) ^^^ ((st.e ^^^ 4294967295) &&& st.g)
  let t1 := add32 (add32 (add32 st.hh s1) (add32 ch kw.1)) kw.2
  let s0 := (rotr 2 st.a) ^^^ (rotr 13 st.a) ^^^ (rotr 22 st.a)
  let mj := (st.a &&& st.b) ^^^ (st.a &&& st.c) ^^^ (st.b &&& st.c)
  let t2 := add32 s0 mj
  ⟨add32 t1 t2, st.a, st.b, st.c, add32 st.d t1, st.e, st.f, st.g⟩

/-- Process one 64-byte block. -/
def shaBlock (st : ShaState) (block : List Nat) : ShaState :=
  let ws := extendWords (toWords block) 48
  let r := (List.zip shaK ws).foldl shaRound st
  ⟨add32 st.a r.a, add32 st.b r.b, add32 st.c r.c, add32 st.d r.d,
   add32 st.e r.e, add32 st.f r.f, add32 st.g r.g, add32 st.hh r.hh⟩

/-- Serialize one 32-bit word big-endian. -/
def wordBytes (w : Nat) : List Nat :=
  [(w >>> 24) % 256, (w >>> 16) % 256, (w >>> 8) % 256, w % 256]

/-- Absorb a (padded) message into the hash state one 64-byte block at a
time; `buf` accumulates the bytes of the current block. -/
def shaAbsorb (st : ShaState) (buf : List Nat) : List Nat → ShaState
  | [] => st
  | b :: rest =>
    let buf' := buf ++ [b]
    if buf'.length = 64 then shaAbsorb (shaBlock st buf') [] rest
    else shaAbsorb st buf' rest

/-- SHA-256 digest of a byte list (32 bytes). -/
def sha256 (msg : List Nat) : List Nat :=
  let fin := shaAbsorb shaInit [] (shaPad msg)
  wordBytes fin.a ++ wordBytes fin.b ++ wordBytes fin.c ++ wordBytes fin.d ++
  wordBytes fin.e ++ wordBytes fin.f ++ wordBytes fin.g ++ wordBytes fin.hh

theorem sha256_length (msg : List Nat) : (sha256 msg).length = 32 := by
  simp [sha256, wordBytes]

/-- One lowercase hexadecimal digit. -/
def hexDigit (n : Nat) : Char :=
  if n < 10 then Char.ofNat (48 + n) else Char.ofNat (87 + n)

/-- Lowercase hex encoding of a byte list (embedding of `hex::encode`). -/
def hexEncode (l : List Nat) : String :=
  String.mk (l.flatMap (fun b => [hexDigit (b / 16), hexDigit (b % 16)]))

theorem hexEncode_length (l : List Nat) :
    (hexEncode l).length = 2 * l.length := by
  induction l with
  | nil => rfl
  | cons b rest ih =>
    simp [hexEncode, String.length] at ih ⊢
    omega

/-- UTF-8 encoding of one code point. -/
def utf8Bytes (c : Nat) : List Nat :=
  if c < 0x80 then [c]
  else if c < 0x800 then
    [0xC0 ||| (c >>> 6), 0x80 ||| (c &&& 0x3F)]
  else if c < 0x10000 then
    [0xE0 ||| (c >>> 12), 0x80 ||| ((c >>> 6) &&& 0x3F), 0x80 ||| (c &&& 0x3F)]
  else
    [0xF0 ||| (c >>> 18), 0x80 ||| ((c >>> 12) &&& 0x3F),
     0x80 ||| ((c >>> 6) &&& 0x3F), 0x80 ||| (c &&& 0x3F)]

/-- Bytes of a string (`str::as_bytes`, UTF-8). -/
def strBytes (s : String) : List Nat :=
  s.data.flatMap (fun c => utf8Bytes c.toNat)

/-- Modelled from the spec: the repository's build profile (its `Cargo.toml`
files are not under `src/`) decides whether `u128` arithmetic overflow wraps
silently or aborts the call; §7 of the specification requires every failure
to surface as an error and never to corrupt state ("a failing call leaves
all stores byte-for-byte unchanged"), matching the standard NEAR
`overflow-checks = true` profile in which an overflowing subtraction panics
and the runtime reverts the transaction.  `subChecked` accordingly returns
`none` on underflow, which the operation embeddings turn into the Rust
panic message. -/
def subChecked (a b : Nat) : Option Nat :=
  if b ≤ a then some (a - b) else none

/-! ## Transfer log

Each `Promise::new(to).transfer(amount)` performed by an operation is
recorded together with the store and record id the operation acted on. -/

/-- Which store the paying operation acted on. -/
inductive STag where
  | contractsT      -- `htlc-near::contracts` (full-amount escrows)
  | crossT          -- `htlc-near::cross_chain_contracts`
  | fillT           -- `htlc-near::partial_fills` (child fills)
  | swapT           -- `fusion-htlc::swaps`
  | ethReqT         -- `fusion-htlc::eth_swap_requests`
deriving Repr, DecidableEq

/-- One invocation of the ledger transfer capability. -/
structure Transfer where
  tag : STag
  id : String
  dest : String
  amount : Nat
deriving Repr, DecidableEq

/-- Number of ledger transfers in the log for a given store and id. -/
def countT (log : List Transfer) (tag : STag) (id : String) : Nat :=
  log.countP (fun t => t.tag = tag ∧ t.id = id)

@[simp] theorem countT_nil (tag : STag) (id : String) :
    countT [] tag id = 0 := rfl

theorem countT_append (l₁ l₂ : List Transfer) (tag : STag) (id : String) :
    countT (l₁ ++ l₂) tag id = countT l₁ tag id + countT l₂ tag id := by
  simp [countT, List.countP_append]

theorem countT_cons (t : Transfer) (l : List Transfer) (tag : STag)
    (id : String) :
    countT (t :: l) tag id =
      (if t.tag = tag ∧ t.id = id then 1 else 0) + countT l tag id := by
  by_cases h : t.tag = tag ∧ t.id = id
  · simp [countT, List.countP_cons, h, Nat.add_comm]
  · simp [countT, List.countP_cons, h]

end Enju

namespace HtlcNear

open Enju

/-! ## The `htlc-near` contract (`src/near-contracts/htlc-near/src/lib.rs`)

Structures and public methods, translated field by field and check by
check.  The Rust names `PartialFill` / `PartialFillSwap` and the
`*_partial_fill*` methods are embedded under the shortened names `Fill` /
`FillSwap` / `create_fill` and so on — each definition's doc comment names
its Rust original; everything else keeps the source name. -/

/-- `HTLCContract` (full-amount escrow record). -/
structure HTLCContract where
  sender : String
  receiver : String
  amount : Nat
  hashlock : List Nat
  timelock : Nat
  withdrawn : Bool
  refunded : Bool
  eth_address : String
deriving Repr, DecidableEq

/-- `CrossChainHTLC`. -/
structure CrossChainHTLC where
  sender : String
  receiver : String
  amount : Nat
  hashlock : List Nat
  timelock : Nat
  withdrawn : Bool
  refunded : Bool
  eth_address : String
  eth_tx_hash : Option String
deriving Repr, DecidableEq

/-- `PartialFill` (child fill of an aggregate order). -/
structure Fill where
  fill_id : String
  parent_swap_id : String
  sender : String
  receiver : String
  fill_amount : Nat
  hashlock : List Nat
  timelock : Nat
  completed : Bool
  refunded : Bool
  eth_address : String
  eth_tx_hash : Option String
  created_at : Nat
deriving Repr, DecidableEq

/-- `PartialFillSwap` (aggregate order). -/
structure FillSwap where
  swap_id : String
  sender : String
  receiver : String
  total_amount : Nat
  filled_amount : Nat
  remaining_amount : Nat
  eth_address : String
  timelock : Nat
  completed : Bool
  created_at : Nat
  fill_count : Nat
deriving Repr, DecidableEq

/-- `HTLCNear` contract state. -/
structure State where
  contracts : List (String × HTLCContract)
  cross_chain_contracts : List (String × CrossChainHTLC)
  fill_swaps : List (String × FillSwap)
  fills : List (String × Fill)
  owner : String
  authorized_resolvers : List (String × Bool)
deriving Repr, DecidableEq

/-- `HTLCNear::new`. -/
def init (owner : String) : State :=
  ⟨[], [], [], [], owner, []⟩

/-- Id derived by `create_htlc` (and, with a `cc-` marker, by
`create_cross_chain_htlc`):
`format!("{}-{}-{}-{}", sender, receiver, amount, block_timestamp_ms)`.
The source interpolates `amount` as a `NearToken` through that type's
human-readable (and lossy) `Display`; the model renders the exact
yoctoNEAR decimal instead.  Identical defining fields still derive
identical ids in both renderings, which is all the id-collision results
rely on; the literal id strings differ from the program's, and the lossy
`Display` can make the real program collide on *more* inputs than the
model. -/
def htlcId (sender receiver : String) (amount now : Nat) : String :=
  sender ++ "-" ++ receiver ++ "-" ++ toString amount ++ "-" ++ toString now

/-- `create_htlc` (payable).  `caller`, `deposit`, `now` embed
`predecessor_account_id`, `attached_deposit`, `block_timestamp_ms`. -/
def create_htlc (s : State) (caller : String) (deposit now : Nat)
    (receiver : String) (hashlock : List Nat) (timelock : Nat)
    (eth_address : String) : Except String (State × String) :=
  if ¬ 0 < deposit then .error "Amount must be greater than 0"
  else if ¬ now < timelock then .error "Timelock must be in the future"
  else if hashlock = [] then .error "Hashlock cannot be empty"
  else if ¬ hashlock.length = 32 then .error "Hashlock must be 32 bytes"
  else
    let contract_id := htlcId caller receiver deposit now
    let contract : HTLCContract :=
      ⟨caller, receiver, deposit, hashlock, timelock, false, false,
       eth_address⟩
    .ok ({ s with contracts := minsert s.contracts contract_id contract },
         contract_id)

/-- `withdraw`. -/
def withdraw (s : State) (caller : String) (now : Nat) (contract_id : String)
    (preimage : List Nat) : Except String (State × List Transfer) :=
  match mlookup s.contracts contract_id with
  | none => .error "Contract does not exist"
  | some contract =>
    if contract.withdrawn then .error "Already withdrawn"
    else if contract.refunded then .error "Already refunded"
    else if ¬ caller = contract.receiver then
      .error "Only receiver can withdraw"
    else if ¬ now ≤ contract.timelock then .error "Timelock expired"
    else if ¬ sha256 preimage = contract.hashlock then
      .error "Invalid preimage"
    else
      .ok ({ s with contracts := minsert s.contracts contract_id
                      { contract with withdrawn := true } },
           [⟨.contractsT, contract_id, contract.receiver, contract.amount⟩])

/-- `refund`. -/
def refund (s : State) (caller : String) (now : Nat) (contract_id : String) :
    Except String (State × List Transfer) :=
  match mlookup s.contracts contract_id with
  | none => .error "Contract does not exist"
  | some contract =>
    if contract.withdrawn then .error "Already withdrawn"
    else if contract.refunded then .error "Already refunded"
    else if ¬ caller = contract.sender then .error "Only sender can refund"
    else if ¬ contract.timelock < now then .error "Timelock not expired"
    else
      .ok ({ s with contracts := minsert s.contracts contract_id
                      { contract with refunded := true } },
           [⟨.contractsT, contract_id, contract.sender, contract.amount⟩])

/-- `check_preimage`. -/
def check_preimage (s : State) (contract_id : String) (preimage : List Nat) :
    Bool :=
  match mlookup s.contracts contract_id with
  | some contract => decide (sha256 preimage = contract.hashlock)
  | none => false

/-- `create_cross_chain_htlc` (payable); id prefixed with `cc-`. -/
def create_cross_chain_htlc (s : State) (caller : String) (deposit now : Nat)
    (receiver : String) (hashlock : List Nat) (timelock : Nat)
    (eth_address : String) : Except String (State × String) :=
  if ¬ 0 < deposit then .error "Amount must be greater than 0"
  else if ¬ now < timelock then .error "Timelock must be in the future"
  else if hashlock = [] then .error "Hashlock cannot be empty"
  else if ¬ hashlock.length = 32 then .error "Hashlock must be 32 bytes"
  else if eth_address = "" then .error "ETH address required"
  else
    let contract_id := "cc-" ++ htlcId caller receiver deposit now
    let contract : CrossChainHTLC :=
      ⟨caller, receiver, deposit, hashlock, timelock, false, false,
       eth_address, none⟩
    .ok ({ s with cross_chain_contracts :=
             minsert s.cross_chain_contracts contract_id contract },
         contract_id)

/-- `complete_cross_chain_swap`. -/
def complete_cross_chain_swap (s : State) (caller : String) (now : Nat)
    (contract_id : String) (preimage : List Nat) (eth_tx_hash : String) :
    Except String (State × List Transfer) :=
  match mlookup s.cross_chain_contracts contract_id with
  | none => .error "Contract does not exist"
  | some contract =>
    if contract.withdrawn then .error "Already withdrawn"
    else if contract.refunded then .error "Already refunded"
    else if ¬ caller = contract.receiver then
      .error "Only receiver can withdraw"
    else if ¬ now ≤ contract.timelock then .error "Timelock expired"
    else if ¬ sha256 preimage = contract.hashlock then
      .error "Invalid preimage"
    else
      let contract' :=
        { contract with withdrawn := true, eth_tx_hash := some eth_tx_hash }
      .ok ({ s with cross_chain_contracts :=
               minsert s.cross_chain_contracts contract_id contract' },
           [⟨.crossT, contract_id, contract.receiver, contract.amount⟩])

/-- `refund_cross_chain`. -/
def refund_cross_chain (s : State) (caller : String) (now : Nat)
    (contract_id : String) : Except String (State × List Transfer) :=
  match mlookup s.cross_chain_contracts contract_id with
  | none => .error "Contract does not exist"
  | some contract =>
    if contract.withdrawn then .error "Already withdrawn"
    else if contract.refunded then .error "Already refunded"
    else if ¬ caller = contract.sender then .error "Only sender can refund"
    else if ¬ contract.timelock < now then .error "Timelock not expired"
    else
      let contract' := { contract with refunded := true }
      .ok ({ s with cross_chain_contracts :=
               minsert s.cross_chain_contracts contract_id contract' },
           [⟨.crossT, contract_id, contract.sender, contract.amount⟩])

/-- Id derived by `create_partial_fill_swap`:
`format!("pf-swap-{}-{}-{}", sender, total_amount, block_timestamp_ms)`. -/
def fillSwapId (sender : String) (total now : Nat) : String :=
  "pf-swap-" ++ sender ++ "-" ++ toString total ++ "-" ++ toString now

/-- `create_partial_fill_swap` (creates the aggregate order; not payable). -/
def create_fill_swap (s : State) (caller : String) (now : Nat)
    (receiver : String) (total_amount : Nat) (eth_address : String)
    (timelock : Nat) : Except String (State × String) :=
  if ¬ 0 < total_amount then .error "Total amount must be greater than 0"
  else if ¬ now < timelock then .error "Timelock must be in the future"
  else if eth_address = "" then .error "ETH address required"
  else
    let swap_id := fillSwapId caller total_amount now
    let swap : FillSwap :=
      ⟨swap_id, caller, receiver, total_amount, 0, total_amount, eth_address,
       timelock, false, now, 0⟩
    .ok ({ s with fill_swaps := minsert s.fill_swaps swap_id swap }, swap_id)

/-- Id derived by `create_partial_fill`:
`format!("fill-{}-{}-{}", swap_id, fill_amount, block_timestamp_ms)`. -/
def fillId (swap_id : String) (amount now : Nat) : String :=
  "fill-" ++ swap_id ++ "-" ++ toString amount ++ "-" ++ toString now

/-- `create_partial_fill` (payable). -/
def create_fill (s : State) (caller : String) (deposit now : Nat)
    (swap_id : String) (hashlock : List Nat) (fill_amount : Nat) :
    Except String (State × String) :=
  match mlookup s.fill_swaps swap_id with
  | none => .error "Partial fill swap does not exist"
  | some swap =>
    if ¬ caller = swap.sender then
      .error "Only swap sender can create fills"
    else if swap.completed then .error "Swap already completed"
    else if ¬ 0 < fill_amount then
      .error "Fill amount must be greater than 0"
    else if ¬ fill_amount ≤ swap.remaining_amount then
      .error "Fill amount exceeds remaining amount"
    else if ¬ deposit = fill_amount then
      .error "Must attach exact fill amount"
    else if hashlock = [] then .error "Hashlock cannot be empty"
    else if ¬ hashlock.length = 32 then .error "Hashlock must be 32 bytes"
    else
      let fid := fillId swap_id fill_amount now
      let fill : Fill :=
        ⟨fid, swap_id, caller, swap.receiver, fill_amount, hashlock,
         swap.timelock, false, false, swap.eth_address, none, now⟩
      let remaining' := swap.remaining_amount - fill_amount
      let swap' : FillSwap :=
        { swap with
          filled_amount := swap.filled_amount + fill_amount,
          remaining_amount := remaining',
          fill_count := swap.fill_count + 1,
          completed := if remaining' = 0 then true else swap.completed }
      .ok ({ s with fills := minsert s.fills fid fill,
                    fill_swaps := minsert s.fill_swaps swap_id swap' },
           fid)

/-- `complete_partial_fill`. -/
def complete_fill (s : State) (caller : String) (now : Nat)
    (fill_id : String) (preimage : List Nat) (eth_tx_hash : String) :
    Except String (State × List Transfer) :=
  match mlookup s.fills fill_id with
  | none => .error "Partial fill does not exist"
  | some fill =>
    if fill.completed then .error "Fill already completed"
    else if fill.refunded then .error "Fill already refunded"
    else if ¬ caller = fill.receiver then
      .error "Only receiver can complete fill"
    else if ¬ now ≤ fill.timelock then .error "Timelock expired"
    else if ¬ sha256 preimage = fill.hashlock then .error "Invalid preimage"
    else
      .ok ({ s with fills := minsert s.fills fill_id
                      { fill with completed := true,
                                  eth_tx_hash := some eth_tx_hash } },
           [⟨.fillT, fill_id, fill.receiver, fill.fill_amount⟩])

/-- `refund_partial_fill`.  The source marks the fill refunded and inserts
it before looking up the parent swap; a missing parent panics, which
reverts the insertion, so the embedding checks the parent before
committing.  The `u128` subtraction `filled_amount - fill_amount` is
embedded through `subChecked` (see its doc comment). -/
def refund_fill (s : State) (caller : String) (now : Nat)
    (fill_id : String) : Except String (State × List Transfer) :=
  match mlookup s.fills fill_id with
  | none => .error "Partial fill does not exist"
  | some fill =>
    if fill.completed then .error "Fill already completed"
    else if fill.refunded then .error "Fill already refunded"
    else if ¬ caller = fill.sender then .error "Only sender can refund fill"
    else if ¬ fill.timelock < now then .error "Timelock not expired"
    else
      match mlookup s.fill_swaps fill.parent_swap_id with
      | none => .error "Parent swap not found"
      | some swap =>
        match subChecked swap.filled_amount fill.fill_amount with
        | none => .error "attempt to subtract with overflow"
        | some filled' =>
          let swap' : FillSwap :=
            { swap with
              filled_amount := filled',
              remaining_amount := swap.remaining_amount + fill.fill_amount,
              completed := false }
          .ok ({ s with
                 fills := minsert s.fills fill_id
                            { fill with refunded := true },
                 fill_swaps := minsert s.fill_swaps fill.parent_swap_id
                                 swap' },
               [⟨.fillT, fill_id, fill.sender, fill.fill_amount⟩])

end HtlcNear

namespace Fusion

open Enju

/-! ## The `fusion-htlc` contract (`src/near-contracts/fusion-htlc/src/lib.rs`)

Note `claim_swap` is a *partial claim*: it takes an amount, draws it from
`amount_remaining`, and may succeed many times for the same swap id. -/

/-- `HTLCSwap`. -/
structure HTLCSwap where
  sender : String
  receiver : String
  amount : Nat
  amount_remaining : Nat
  amount_claimed : Nat
  token : Option String
  hashlock : String
  timelock : Nat
  secret : Option String
  is_completed : Bool
  is_refunded : Bool
  eth_tx_hash : Option String
  claimers : List (String × Nat)
deriving Repr, DecidableEq

/-- `EthSwapRequest`. -/
structure EthSwapRequest where
  swap_id : String
  near_sender : String
  eth_recipient : String
  amount : Nat
  near_token : Option String
  eth_token : String
  hashlock : String
  timelock : Nat
  fusion_order_params : String
deriving Repr, DecidableEq

/-- `FusionHTLC` contract state. -/
structure State where
  swaps : List (String × HTLCSwap)
  eth_swap_requests : List (String × EthSwapRequest)
  owner : String
  claims_in_progress : List (String × Bool)
deriving Repr, DecidableEq

/-- `FusionHTLC::new`. -/
def init (owner : String) : State := ⟨[], [], owner, []⟩

/-- `hash_secret`: `hex::encode(Sha256::digest(secret.as_bytes()))`. -/
def hash_secret (secret : String) : String :=
  hexEncode (sha256 (strBytes secret))

/-- `generate_swap_id`: hex SHA-256 of
`format!("{}-{}-{}-{}", sender, receiver, hashlock, timelock)`. -/
def generate_swap_id (sender receiver hashlock : String) (timelock : Nat) :
    String :=
  hexEncode (sha256 (strBytes
    (sender ++ "-" ++ receiver ++ "-" ++ hashlock ++ "-" ++
     toString timelock)))

/-- `verify_secret` (pure helper exposed to relayers). -/
def verify_secret (secret hashlock : String) : Bool :=
  hash_secret secret == hashlock

/-- `is_claiming_in_progress`. -/
def is_claiming_in_progress (s : State) (swap_id : String) : Bool :=
  (mlookup s.claims_in_progress swap_id).getD false

/-- `initiate_swap` (payable).  `now` embeds `block_timestamp` (ns). -/
def initiate_swap (s : State) (caller : String) (deposit now : Nat)
    (receiver : String) (hashlock : String) (timelock : Nat)
    (eth_tx_hash : Option String) : Except String (State × String) :=
  if ¬ 0 < deposit then .error "Amount must be greater than 0"
  else if ¬ now < timelock then .error "Timelock must be in the future"
  else if ¬ hashlock.length = 64 then
    .error "Hashlock must be 32 bytes hex string"
  else
    let swap_id := generate_swap_id caller receiver hashlock timelock
    if ¬ mlookup s.swaps swap_id = none then .error "Swap already exists"
    else
      let swap : HTLCSwap :=
        ⟨caller, receiver, deposit, deposit, 0, none, hashlock, timelock,
         none, false, false, eth_tx_hash, []⟩
      .ok ({ s with swaps := minsert s.swaps swap_id swap }, swap_id)

/-- `claim_swap`: partial claim of `amount` by whoever presents the secret.
The reentrancy flag is set just before and cleared just after the payout,
within the same atomic call. -/
def claim_swap (s : State) (caller : String) (now : Nat)
    (swap_id secret : String) (amount : Nat) :
    Except String (State × List Transfer) :=
  match mlookup s.swaps swap_id with
  | none => .error "Swap not found"
  | some swap =>
    if swap.is_completed then .error "Swap already completed"
    else if swap.is_refunded then .error "Swap already refunded"
    else if ¬ now < swap.timelock then .error "Swap expired"
    else if ¬ hash_secret secret = swap.hashlock then .error "Invalid secret"
    else if ¬ 0 < amount then .error "Claim amount must be greater than 0"
    else if ¬ amount ≤ swap.amount_remaining then
      .error "Claim amount exceeds remaining balance"
    else if is_claiming_in_progress s swap_id then
      .error "Claim already in progress"
    else
      let remaining' := swap.amount_remaining - amount
      let swap' : HTLCSwap :=
        { swap with
          secret := some secret,
          amount_remaining := remaining',
          amount_claimed := swap.amount_claimed + amount,
          claimers := swap.claimers ++ [(caller, amount)],
          is_completed := if remaining' = 0 then true else swap.is_completed }
      -- `require!(payout > 0)` sits after the state insert in the source but
      -- repeats the earlier `amount > 0` check, so it can never fire.
      if ¬ 0 < amount then .error "Payout amount must be positive"
      else
        .ok ({ s with
               swaps := minsert s.swaps swap_id swap',
               claims_in_progress :=
                 mremove (minsert s.claims_in_progress swap_id true)
                   swap_id },
             [⟨.swapT, swap_id, caller, amount⟩])

/-- `refund_swap`: refunds the *remaining* amount after expiry. -/
def refund_swap (s : State) (caller : String) (now : Nat)
    (swap_id : String) : Except String (State × List Transfer) :=
  match mlookup s.swaps swap_id with
  | none => .error "Swap not found"
  | some swap =>
    if swap.is_completed then .error "Swap already completed"
    else if swap.is_refunded then .error "Swap already refunded"
    else if ¬ swap.timelock ≤ now then .error "Swap not expired yet"
    else if ¬ caller = swap.sender then .error "Only sender can refund"
    else if ¬ 0 < swap.amount_remaining then
      .error "No amount left to refund"
    else
      let swap' :=
        { swap with is_refunded := true, is_completed := true }
      .ok ({ s with swaps := minsert s.swaps swap_id swap' },
           [⟨.swapT, swap_id, caller, swap.amount_remaining⟩])

/-- `cleanup_expired_swap` (no payout; flips `is_completed` on expiry). -/
def cleanup_expired_swap (s : State) (now : Nat) (swap_id : String) :
    State × Bool :=
  match mlookup s.swaps swap_id with
  | none => (s, false)
  | some swap =>
    if swap.timelock ≤ now ∧ ¬ swap.is_completed then
      ({ s with swaps := minsert s.swaps swap_id
                  { swap with is_completed := true } },
       true)
    else (s, false)

/-- Id derived by `request_eth_swap`:
`format!("near_to_eth_{}", block_timestamp)`. -/
def ethReqId (now : Nat) : String := "near_to_eth_" ++ toString now

/-- `request_eth_swap` (payable). -/
def request_eth_swap (s : State) (caller : String) (deposit now : Nat)
    (eth_recipient eth_token hashlock : String) (timelock : Nat)
    (fusion_order_params : String) : Except String (State × String) :=
  if ¬ 0 < deposit then .error "Amount must be greater than 0"
  else if ¬ now < timelock then .error "Timelock must be in the future"
  else if ¬ hashlock.length = 64 then
    .error "Hashlock must be 32 bytes hex string"
  else if ¬ (eth_recipient.length = 42 ∧
             eth_recipient.startsWith "0x") then
    .error "Invalid Ethereum address"
  else
    let swap_id := ethReqId now
    let req : EthSwapRequest :=
      ⟨swap_id, caller, eth_recipient, deposit, none, eth_token, hashlock,
       timelock, fusion_order_params⟩
    .ok ({ s with eth_swap_requests :=
             minsert s.eth_swap_requests swap_id req },
         swap_id)

/-- `complete_eth_swap`: pays the caller-supplied recipient and deletes the
request. -/
def complete_eth_swap (s : State) (now : Nat) (swap_id secret : String)
    (recipient : String) : Except String (State × List Transfer) :=
  match mlookup s.eth_swap_requests swap_id with
  | none => .error "Ethereum swap request not found"
  | some req =>
    if ¬ hash_secret secret = req.hashlock then .error "Invalid secret"
    else if ¬ now ≤ req.timelock then .error "Swap expired"
    else
      .ok ({ s with eth_swap_requests := mremove s.eth_swap_requests swap_id },
           [⟨.ethReqT, swap_id, recipient, req.amount⟩])

/-- `refund_eth_swap`: refunds the initiator and deletes the request. -/
def refund_eth_swap (s : State) (now : Nat) (swap_id : String) :
    Except String (State × List Transfer) :=
  match mlookup s.eth_swap_requests swap_id with
  | none => .error "Ethereum swap request not found"
  | some req =>
    if ¬ req.timelock < now then .error "Swap not yet expired"
    else
      .ok ({ s with eth_swap_requests := mremove s.eth_swap_requests swap_id },
           [⟨.ethReqT, swap_id, req.near_sender, req.amount⟩])

end Fusion

namespace HtlcNear

open Enju

/-! ## Trace semantics for `htlc-near`

A call packages the host environment (`predecessor_account_id`,
`attached_deposit`, `block_timestamp_ms`) with the method arguments.  `hrun`
executes a sequence of calls: a panic leaves the state unchanged (NEAR
reverts the transaction) and contributes no transfers.  `hrun` also reports
whether every successful create derived an id that was not already bound
(the stores of this contract are never deleted from, so "not currently
bound" and "never used" coincide). -/

/-- One external call to `HTLCNear`. -/
inductive HCall where
  | create (caller : String) (deposit now : Nat) (receiver : String)
      (hashlock : List Nat) (timelock : Nat) (eth : String)
  | withdrawC (caller : String) (now : Nat) (id : String)
      (preimage : List Nat)
  | refundC (caller : String) (now : Nat) (id : String)
  | createCC (caller : String) (deposit now : Nat) (receiver : String)
      (hashlock : List Nat) (timelock : Nat) (eth : String)
  | completeCC (caller : String) (now : Nat) (id : String)
      (preimage : List Nat) (ethTx : String)
  | refundCC (caller : String) (now : Nat) (id : String)
  | createFS (caller : String) (now : Nat) (receiver : String) (total : Nat)
      (eth : String) (timelock : Nat)
  | createF (caller : String) (deposit now : Nat) (swapId : String)
      (hashlock : List Nat) (amount : Nat)
  | completeF (caller : String) (now : Nat) (id : String)
      (preimage : List Nat) (ethTx : String)
  | refundF (caller : String) (now : Nat) (id : String)

/-- Execute one call (dropping returned ids, keeping transfers). -/
def hstep (s : State) : HCall → Except String (State × List Transfer)
  | .create caller dep now recv hl tl eth =>
    (create_htlc s caller dep now recv hl tl eth).map (fun r => (r.1, []))
  | .withdrawC caller now id pre => withdraw s caller now id pre
  | .refundC caller now id => refund s caller now id
  | .createCC caller dep now recv hl tl eth =>
    (create_cross_chain_htlc s caller dep now recv hl tl eth).map
      (fun r => (r.1, []))
  | .completeCC caller now id pre ethTx =>
    complete_cross_chain_swap s caller now id pre ethTx
  | .refundCC caller now id => refund_cross_chain s caller now id
  | .createFS caller now recv total eth tl =>
    (create_fill_swap s caller now recv total eth tl).map (fun r => (r.1, []))
  | .createF caller dep now swapId hl amt =>
    (create_fill s caller dep now swapId hl amt).map (fun r => (r.1, []))
  | .completeF caller now id pre ethTx => complete_fill s caller now id pre ethTx
  | .refundF caller now id => refund_fill s caller now id

/-- Whether a create call would derive an id that is still unbound in its
store; `true` for every non-create call. -/
def hfresh (s : State) : HCall → Bool
  | .create caller dep now recv _ _ _ =>
    (mlookup s.contracts (htlcId caller recv dep now)).isNone
  | .createCC caller dep now recv _ _ _ =>
    (mlookup s.cross_chain_contracts
      ("cc-" ++ htlcId caller recv dep now)).isNone
  | .createFS caller now _ total _ _ =>
    (mlookup s.fill_swaps (fillSwapId caller total now)).isNone
  | .createF _ _ now swapId _ amt =>
    (mlookup s.fills (fillId swapId amt now)).isNone
  | _ => true

/-- Run a call sequence: final state, transfer log, and whether every
successful create found its derived id fresh. -/
def hrun (s : State) : List HCall → State × List Transfer × Bool
  | [] => (s, [], true)
  | c :: cs =>
    match hstep s c with
    | .error _ => hrun s cs
    | .ok (s1, ts) =>
      let r := hrun s1 cs
      (r.1, ts ++ r.2.1, hfresh s c && r.2.2)

end HtlcNear

namespace Fusion

open Enju

/-! ## Trace semantics for `fusion-htlc`

As for `htlc-near`, but `eth_swap_requests` entries are deleted on
completion/refund, so freshness of `request_eth_swap` ids is tracked
against the set of ids ever used, threaded through the run. -/

/-- One external call to `FusionHTLC`. -/
inductive FCall where
  | initiate (caller : String) (deposit now : Nat) (receiver : String)
      (hashlock : String) (timelock : Nat) (ethTx : Option String)
  | claim (caller : String) (now : Nat) (id secret : String) (amount : Nat)
  | refundS (caller : String) (now : Nat) (id : String)
  | cleanup (now : Nat) (id : String)
  | request (caller : String) (deposit now : Nat)
      (ethRecipient ethToken hashlock : String) (timelock : Nat)
      (params : String)
  | completeE (now : Nat) (id secret recipient : String)
  | refundE (now : Nat) (id : String)

/-- Execute one call. -/
def fstep (s : State) : FCall → Except String (State × List Transfer)
  | .initiate caller dep now recv hl tl ethTx =>
    (initiate_swap s caller dep now recv hl tl ethTx).map (fun r => (r.1, []))
  | .claim caller now id secret amt => claim_swap s caller now id secret amt
  | .refundS caller now id => refund_swap s caller now id
  | .cleanup now id => .ok ((cleanup_expired_swap s now id).1, [])
  | .request caller dep now er et hl tl ps =>
    (request_eth_swap s caller dep now er et hl tl ps).map (fun r => (r.1, []))
  | .completeE now id secret recip => complete_eth_swap s now id secret recip
  | .refundE now id => refund_eth_swap s now id

/-- Request ids newly used by a successful call. -/
def fused : FCall → List String
  | .request _ _ now _ _ _ _ _ => [ethReqId now]
  | _ => []

/-- Whether a `request_eth_swap` call derives an id never used before;
`true` for every other call (`initiate_swap` checks its own id and swaps
are never deleted, so it needs no side condition). -/
def ffresh (used : List String) : FCall → Bool
  | .request _ _ now _ _ _ _ _ => ¬ (ethReqId now) ∈ used
  | _ => true

/-- Run a call sequence from a state and a set of already-used request ids:
final state, transfer log, and the freshness flag. -/
def frun (s : State) (used : List String) :
    List FCall → State × List Transfer × Bool
  | [] => (s, [], true)
  | c :: cs =>
    match fstep s c with
    | .error _ => frun s used cs
    | .ok (s1, ts) =>
      let r := frun s1 (fused c ++ used) cs
      (r.1, ts ++ r.2.1, ffresh used c && r.2.2)

end Fusion

namespace HtlcNear

open Enju

/-! ## Success-case inversion lemmas for the `htlc-near` operations -/

theorem create_htlc_ok {s s' : State} {caller eth rid recv : String}
    {dep now tl : Nat} {hl : List Nat}
    (h : create_htlc s caller dep now recv hl tl eth = .ok (s', rid)) :
    0 < dep ∧ now < tl ∧ hl.length = 32 ∧
    rid = htlcId caller recv dep now ∧
    s' = { s with contracts :=
            (minsert s.contracts rid
              ⟨caller, recv, dep, hl, tl, false, false, eth⟩) } := by
  unfold create_htlc at h
  split_ifs at h with h1 h2 h3 h4
  cases h
  refine ⟨by omega, by omega, by omega, rfl, rfl⟩

theorem withdraw_ok {s s' : State} {caller cid : String} {now : Nat}
    {pre : List Nat} {ts : List Transfer}
    (h : withdraw s caller now cid pre = .ok (s', ts)) :
    ∃ c, mlookup s.contracts cid = some c ∧
      c.withdrawn = false ∧ c.refunded = false ∧ caller = c.receiver ∧
      now ≤ c.timelock ∧ sha256 pre = c.hashlock ∧
      s' = { s with contracts :=
              (minsert s.contracts cid { c with withdrawn := true }) } ∧
      ts = [⟨.contractsT, cid, c.receiver, c.amount⟩] := by
  unfold withdraw at h
  cases hm : mlookup s.contracts cid with
  | none => rw [hm] at h; cases h
  | some c =>
    rw [hm] at h
    dsimp only [] at h
    split_ifs at h with h1 h2 h3 h4 h5
    cases h
    exact ⟨c, rfl, by simpa using h1, by simpa using h2, by tauto, by omega,
           by tauto, rfl, rfl⟩

theorem refund_ok {s s' : State} {caller cid : String} {now : Nat}
    {ts : List Transfer}
    (h : refund s caller now cid = .ok (s', ts)) :
    ∃ c, mlookup s.contracts cid = some c ∧
      c.withdrawn = false ∧ c.refunded = false ∧ caller = c.sender ∧
      c.timelock < now ∧
      s' = { s with contracts :=
              (minsert s.contracts cid { c with refunded := true }) } ∧
      ts = [⟨.contractsT, cid, c.sender, c.amount⟩] := by
  unfold refund at h
  cases hm : mlookup s.contracts cid with
  | none => rw [hm] at h; cases h
  | some c =>
    rw [hm] at h
    dsimp only [] at h
    split_ifs at h with h1 h2 h3 h4
    cases h
    exact ⟨c, rfl, by simpa using h1, by simpa using h2, by tauto, by omega,
           rfl, rfl⟩

theorem create_cc_ok {s s' : State} {caller eth rid recv : String}
    {dep now tl : Nat} {hl : List Nat}
    (h : create_cross_chain_htlc s caller dep now recv hl tl eth
           = .ok (s', rid)) :
    0 < dep ∧ now < tl ∧ hl.length = 32 ∧
    rid = "cc-" ++ htlcId caller recv dep now ∧
    s' = { s with cross_chain_contracts :=
            (minsert s.cross_chain_contracts rid
              ⟨caller, recv, dep, hl, tl, false, false, eth, none⟩) } := by
  unfold create_cross_chain_htlc at h
  split_ifs at h with h1 h2 h3 h4 h5
  cases h
  refine ⟨by omega, by omega, by omega, rfl, rfl⟩

theorem complete_cc_ok {s s' : State} {caller cid ethTx : String}
    {now : Nat} {pre : List Nat} {ts : List Transfer}
    (h : complete_cross_chain_swap s caller now cid pre ethTx
           = .ok (s', ts)) :
    ∃ c, mlookup s.cross_chain_contracts cid = some c ∧
      c.withdrawn = false ∧ c.refunded = false ∧ caller = c.receiver ∧
      now ≤ c.timelock ∧ sha256 pre = c.hashlock ∧
      s' = { s with cross_chain_contracts :=
              (minsert s.cross_chain_contracts cid
                { c with withdrawn := true,
                         eth_tx_hash := some ethTx }) } ∧
      ts = [⟨.crossT, cid, c.receiver, c.amount⟩] := by
  unfold complete_cross_chain_swap at h
  cases hm : mlookup s.cross_chain_contracts cid with
  | none => rw [hm] at h; cases h
  | some c =>
    rw [hm] at h
    dsimp only [] at h
    split_ifs at h with h1 h2 h3 h4 h5
    cases h
    exact ⟨c, rfl, by simpa using h1, by simpa using h2, by tauto, by omega,
           by tauto, rfl, rfl⟩

theorem refund_cc_ok {s s' : State} {caller cid : String} {now : Nat}
    {ts : List Transfer}
    (h : refund_cross_chain s caller now cid = .ok (s', ts)) :
    ∃ c, mlookup s.cross_chain_contracts cid = some c ∧
      c.withdrawn = false ∧ c.refunded = false ∧ caller = c.sender ∧
      c.timelock < now ∧
      s' = { s with cross_chain_contracts :=
              (minsert s.cross_chain_contracts cid
                { c with refunded := true }) } ∧
      ts = [⟨.crossT, cid, c.sender, c.amount⟩] := by
  unfold refund_cross_chain at h
  cases hm : mlookup s.cross_chain_contracts cid with
  | none => rw [hm] at h; cases h
  | some c =>
    rw [hm] at h
    dsimp only [] at h
    split_ifs at h with h1 h2 h3 h4
    cases h
    exact ⟨c, rfl, by simpa using h1, by simpa using h2, by tauto, by omega,
           rfl, rfl⟩

theorem create_fill_swap_ok {s s' : State} {caller eth rid recv : String}
    {now total tl : Nat}
    (h : create_fill_swap s caller now recv total eth tl = .ok (s', rid)) :
    0 < total ∧ now < tl ∧ rid = fillSwapId caller total now ∧
    s' = { s with fill_swaps :=
            (minsert s.fill_swaps rid
              ⟨rid, caller, recv, total, 0, total, eth, tl, false, now,
               0⟩) } := by
  unfold create_fill_swap at h
  split_ifs at h with h1 h2 h3
  cases h
  refine ⟨by omega, by omega, rfl, rfl⟩

theorem create_fill_ok {s s' : State} {caller swapId rid : String}
    {dep now amt : Nat} {hl : List Nat}
    (h : create_fill s caller dep now swapId hl amt = .ok (s', rid)) :
    ∃ swap, mlookup s.fill_swaps swapId = some swap ∧
      caller = swap.sender ∧ swap.completed = false ∧ 0 < amt ∧
      amt ≤ swap.remaining_amount ∧ dep = amt ∧ hl.length = 32 ∧
      rid = fillId swapId amt now ∧
      s' = { s with
             fills :=
               (minsert s.fills rid
                 ⟨rid, swapId, caller, swap.receiver, amt, hl, swap.timelock,
                  false, false, swap.eth_address, none, now⟩),
             fill_swaps :=
               (minsert s.fill_swaps swapId
                 { swap with
                   filled_amount := swap.filled_amount + amt,
                   remaining_amount := swap.remaining_amount - amt,
                   fill_count := swap.fill_count + 1,
                   completed := if swap.remaining_amount - amt = 0 then true
                                else swap.completed }) } := by
  unfold create_fill at h
  cases hm : mlookup s.fill_swaps swapId with
  | none => rw [hm] at h; cases h
  | some swap =>
    rw [hm] at h
    dsimp only [] at h
    split_ifs at h with h1 h2 h3 h4 h5 h6 h7 h8 <;>
      (cases h;
       exact ⟨swap, rfl, by tauto, by simpa using h2, by omega, by omega,
              by omega, by omega, rfl, by simp [h8]⟩)

theorem complete_fill_ok {s s' : State} {caller fid ethTx : String}
    {now : Nat} {pre : List Nat} {ts : List Transfer}
    (h : complete_fill s caller now fid pre ethTx = .ok (s', ts)) :
    ∃ f, mlookup s.fills fid = some f ∧
      f.completed = false ∧ f.refunded = false ∧ caller = f.receiver ∧
      now ≤ f.timelock ∧ sha256 pre = f.hashlock ∧
      s' = { s with fills :=
              (minsert s.fills fid
                { f with completed := true,
                         eth_tx_hash := some ethTx }) } ∧
      ts = [⟨.fillT, fid, f.receiver, f.fill_amount⟩] := by
  unfold complete_fill at h
  cases hm : mlookup s.fills fid with
  | none => rw [hm] at h; cases h
  | some f =>
    rw [hm] at h
    dsimp only [] at h
    split_ifs at h with h1 h2 h3 h4 h5
    cases h
    exact ⟨f, rfl, by simpa using h1, by simpa using h2, by tauto, by omega,
           by tauto, rfl, rfl⟩

theorem refund_fill_ok {s s' : State} {caller fid : String} {now : Nat}
    {ts : List Transfer}
    (h : refund_fill s caller now fid = .ok (s', ts)) :
    ∃ f swap, mlookup s.fills fid = some f ∧
      mlookup s.fill_swaps f.parent_swap_id = some swap ∧
      f.completed = false ∧ f.refunded = false ∧ caller = f.sender ∧
      f.timelock < now ∧ f.fill_amount ≤ swap.filled_amount ∧
      s' = { s with
             fills := (minsert s.fills fid { f with refunded := true }),
             fill_swaps :=
               (minsert s.fill_swaps f.parent_swap_id
                 { swap with
                   filled_amount := swap.filled_amount - f.fill_amount,
                   remaining_amount := swap.remaining_amount + f.fill_amount,
                   completed := false }) } ∧
      ts = [⟨.fillT, fid, f.sender, f.fill_amount⟩] := by
  unfold refund_fill at h
  cases hm : mlookup s.fills fid with
  | none => rw [hm] at h; cases h
  | some f =>
    rw [hm] at h
    dsimp only [] at h
    split_ifs at h with h1 h2 h3 h4
    cases hp : mlookup s.fill_swaps f.parent_swap_id with
    | none => rw [hp] at h; cases h
    | some swap =>
      rw [hp] at h
      dsimp only [] at h
      unfold subChecked at h
      split_ifs at h with h5
      cases h
      exact ⟨f, swap, rfl, hp, by simpa using h1, by simpa using h2,
             by tauto, by omega, h5, rfl, rfl⟩

end HtlcNear

namespace Fusion

open Enju

/-! ## Success-case inversion lemmas for the `fusion-htlc` operations -/

theorem initiate_swap_ok {s s' : State} {caller hl rid recv : String}
    {dep now tl : Nat} {ethTx : Option String}
    (h : initiate_swap s caller dep now recv hl tl ethTx = .ok (s', rid)) :
    0 < dep ∧ now < tl ∧ hl.length = 64 ∧
    rid = generate_swap_id caller recv hl tl ∧
    mlookup s.swaps rid = none ∧
    s' = { s with swaps :=
            (minsert s.swaps rid
              ⟨caller, recv, dep, dep, 0, none, hl, tl, none, false, false,
               ethTx, []⟩) } := by
  unfold initiate_swap at h
  dsimp only [] at h
  split_ifs at h with h1 h2 h3 h4
  cases h
  refine ⟨by omega, by omega, by omega, rfl, by simpa using h4, rfl⟩

theorem claim_swap_ok {s s' : State} {caller swapId secret : String}
    {now amount : Nat} {ts : List Transfer}
    (h : claim_swap s caller now swapId secret amount = .ok (s', ts)) :
    ∃ swap, mlookup s.swaps swapId = some swap ∧
      swap.is_completed = false ∧ swap.is_refunded = false ∧
      now < swap.timelock ∧ hash_secret secret = swap.hashlock ∧
      0 < amount ∧ amount ≤ swap.amount_remaining ∧
      is_claiming_in_progress s swapId = false ∧
      s' = { s with
             swaps :=
               (minsert s.swaps swapId
                 { swap with
                   secret := some secret,
                   amount_remaining := swap.amount_remaining - amount,
                   amount_claimed := swap.amount_claimed + amount,
                   claimers := swap.claimers ++ [(caller, amount)],
                   is_completed := if swap.amount_remaining - amount = 0
                                   then true else swap.is_completed }),
             claims_in_progress :=
               (mremove (minsert s.claims_in_progress swapId true)
                 swapId) } ∧
      ts = [⟨.swapT, swapId, caller, amount⟩] := by
  unfold claim_swap at h
  cases hm : mlookup s.swaps swapId with
  | none => rw [hm] at h; cases h
  | some swap =>
    rw [hm] at h
    dsimp only [] at h
    split_ifs at h with h1 h2 h3 h4 h5 h6 h7 h8 <;>
      (cases h;
       exact ⟨swap, rfl, by simpa using h1, by simpa using h2, by omega,
              by tauto, by omega, by omega, by simpa using h7, by simp [h8],
              rfl⟩)

theorem refund_swap_ok {s s' : State} {caller swapId : String} {now : Nat}
    {ts : List Transfer}
    (h : refund_swap s caller now swapId = .ok (s', ts)) :
    ∃ swap, mlookup s.swaps swapId = some swap ∧
      swap.is_completed = false ∧ swap.is_refunded = false ∧
      swap.timelock ≤ now ∧ caller = swap.sender ∧
      0 < swap.amount_remaining ∧
      s' = { s with swaps :=
              (minsert s.swaps swapId
                { swap with is_refunded := true, is_completed := true }) } ∧
      ts = [⟨.swapT, swapId, caller, swap.amount_remaining⟩] := by
  unfold refund_swap at h
  cases hm : mlookup s.swaps swapId with
  | none => rw [hm] at h; cases h
  | some swap =>
    rw [hm] at h
    dsimp only [] at h
    split_ifs at h with h1 h2 h3 h4 h5
    cases h
    exact ⟨swap, rfl, by simpa using h1, by simpa using h2, by omega,
           by tauto, by omega, rfl, rfl⟩

/-- `cleanup_expired_swap` only ever rewrites the stored swap's
`is_completed` flag; it touches no other store and makes no transfer. -/
theorem cleanup_cases (s : State) (now : Nat) (swapId : String) :
    (cleanup_expired_swap s now swapId).1 = s ∨
    ∃ swap, mlookup s.swaps swapId = some swap ∧
      (cleanup_expired_swap s now swapId).1
        = { s with swaps :=
              (minsert s.swaps swapId
                { swap with is_completed := true }) } := by
  unfold cleanup_expired_swap
  cases hm : mlookup s.swaps swapId with
  | none => exact .inl rfl
  | some swap =>
    dsimp only []
    split_ifs with h1
    · exact .inr ⟨swap, rfl, rfl⟩
    · exact .inl rfl

theorem request_ok {s s' : State}
    {caller er et hl ps rid : String} {dep now tl : Nat}
    (h : request_eth_swap s caller dep now er et hl tl ps = .ok (s', rid)) :
    0 < dep ∧ now < tl ∧ hl.length = 64 ∧
    er.length = 42 ∧ er.startsWith "0x" = true ∧
    rid = ethReqId now ∧
    s' = { s with eth_swap_requests :=
            (minsert s.eth_swap_requests rid
              ⟨rid, caller, er, dep, none, et, hl, tl, ps⟩) } := by
  unfold request_eth_swap at h
  split_ifs at h with h1 h2 h3 h4
  cases h
  refine ⟨by omega, by omega, by omega, by tauto, by tauto, rfl, rfl⟩

theorem complete_eth_ok {s s' : State} {swapId secret recip : String}
    {now : Nat} {ts : List Transfer}
    (h : complete_eth_swap s now swapId secret recip = .ok (s', ts)) :
    ∃ req, mlookup s.eth_swap_requests swapId = some req ∧
      hash_secret secret = req.hashlock ∧ now ≤ req.timelock ∧
      s' = { s with eth_swap_requests :=
              (mremove s.eth_swap_requests swapId) } ∧
      ts = [⟨.ethReqT, swapId, recip, req.amount⟩] := by
  unfold complete_eth_swap at h
  cases hm : mlookup s.eth_swap_requests swapId with
  | none => rw [hm] at h; cases h
  | some req =>
    rw [hm] at h
    dsimp only [] at h
    split_ifs at h with h1 h2
    cases h
    exact ⟨req, rfl, by tauto, by omega, rfl, rfl⟩

theorem refund_eth_ok {s s' : State} {swapId : String} {now : Nat}
    {ts : List Transfer}
    (h : refund_eth_swap s now swapId = .ok (s', ts)) :
    ∃ req, mlookup s.eth_swap_requests swapId = some req ∧
      req.timelock < now ∧
      s' = { s with eth_swap_requests :=
              (mremove s.eth_swap_requests swapId) } ∧
      ts = [⟨.ethReqT, swapId, req.near_sender, req.amount⟩] := by
  unfold refund_eth_swap at h
  cases hm : mlookup s.eth_swap_requests swapId with
  | none => rw [hm] at h; cases h
  | some req =>
    rw [hm] at h
    dsimp only [] at h
    split_ifs at h with h1
    cases h
    exact ⟨req, rfl, by omega, rfl, rfl⟩

end Fusion

namespace Enju

/-- Inversion for `Except.map` returning `ok`. -/
theorem except_map_ok {ε α β : Type} {f : α → β} {e : Except ε α} {y : β}
    (h : Except.map f e = .ok y) : ∃ x, e = .ok x ∧ y = f x := by
  cases e with
  | error err => simp [Except.map] at h
  | ok x =>
    refine ⟨x, rfl, ?_⟩
    simpa [Except.map] using h.symm

end Enju

namespace HtlcNear

open Enju

/-! ## Conservation invariant of the aggregate orders (claim C2) -/

/-- Every stored aggregate order conserves its total and its `completed`
flag tracks `remaining_amount = 0`; every stored fill has a positive
amount (needed to re-establish the flag equivalence across refunds). -/
def ConsInv (s : State) : Prop :=
  (∀ id sw, mlookup s.fill_swaps id = some sw →
     sw.filled_amount + sw.remaining_amount = sw.total_amount ∧
     (sw.completed = true ↔ sw.remaining_amount = 0)) ∧
  (∀ id f, mlookup s.fills id = some f → 0 < f.fill_amount)

theorem consInv_init (owner : String) : ConsInv (init owner) := by
  constructor <;> intro id x hx <;> simp [init, mlookup] at hx

theorem consInv_step {s s' : State} {c : HCall} {ts : List Transfer}
    (hinv : ConsInv s) (h : hstep s c = .ok (s', ts)) : ConsInv s' := by
  obtain ⟨hswaps, hfills⟩ := hinv
  cases c with
  | create caller dep now recv hl tl eth =>
    simp only [hstep] at h
    obtain ⟨⟨s1, rid⟩, hr, hy⟩ := except_map_ok h
    simp only [Prod.mk.injEq] at hy
    obtain ⟨rfl, rfl⟩ := hy
    obtain ⟨-, -, -, -, rfl⟩ := create_htlc_ok hr
    exact ⟨hswaps, hfills⟩
  | withdrawC caller now id pre =>
    obtain ⟨c, -, -, -, -, -, -, rfl, -⟩ := withdraw_ok h
    exact ⟨hswaps, hfills⟩
  | refundC caller now id =>
    obtain ⟨c, -, -, -, -, -, rfl, -⟩ := refund_ok h
    exact ⟨hswaps, hfills⟩
  | createCC caller dep now recv hl tl eth =>
    simp only [hstep] at h
    obtain ⟨⟨s1, rid⟩, hr, hy⟩ := except_map_ok h
    simp only [Prod.mk.injEq] at hy
    obtain ⟨rfl, rfl⟩ := hy
    obtain ⟨-, -, -, -, rfl⟩ := create_cc_ok hr
    exact ⟨hswaps, hfills⟩
  | completeCC caller now id pre ethTx =>
    obtain ⟨c, -, -, -, -, -, -, rfl, -⟩ := complete_cc_ok h
    exact ⟨hswaps, hfills⟩
  | refundCC caller now id =>
    obtain ⟨c, -, -, -, -, -, rfl, -⟩ := refund_cc_ok h
    exact ⟨hswaps, hfills⟩
  | createFS caller now recv total eth tl =>
    simp only [hstep] at h
    obtain ⟨⟨s1, rid⟩, hr, hy⟩ := except_map_ok h
    simp only [Prod.mk.injEq] at hy
    obtain ⟨rfl, rfl⟩ := hy
    obtain ⟨htot, -, -, rfl⟩ := create_fill_swap_ok hr
    refine ⟨?_, hfills⟩
    intro id sw hlu
    rw [mlookup_minsert] at hlu
    by_cases hid : id = rid
    · rw [if_pos hid] at hlu
      cases hlu
      constructor
      · simp
      · simp
        omega
    · rw [if_neg hid] at hlu
      exact hswaps id sw hlu
  | createF caller dep now swapId hl amt =>
    simp only [hstep] at h
    obtain ⟨⟨s1, rid⟩, hr, hy⟩ := except_map_ok h
    simp only [Prod.mk.injEq] at hy
    obtain ⟨rfl, rfl⟩ := hy
    obtain ⟨swap, hm, -, hcomp, hamt, hle, -, -, -, rfl⟩ := create_fill_ok hr
    obtain ⟨hsum, -⟩ := hswaps swapId swap hm
    constructor
    · intro id sw hlu
      rw [mlookup_minsert] at hlu
      by_cases hid : id = swapId
      · rw [if_pos hid] at hlu
        cases hlu
        refine ⟨by simp; omega, ?_⟩
        by_cases hz : swap.remaining_amount - amt = 0 <;>
          simp [hz, hcomp]
      · rw [if_neg hid] at hlu
        exact hswaps id sw hlu
    · intro id f hlu
      rw [mlookup_minsert] at hlu
      by_cases hid : id = rid
      · rw [if_pos hid] at hlu
        cases hlu
        simpa using hamt
      · rw [if_neg hid] at hlu
        exact hfills id f hlu
  | completeF caller now id pre ethTx =>
    obtain ⟨f, hm, -, -, -, -, -, rfl, -⟩ := complete_fill_ok h
    refine ⟨hswaps, ?_⟩
    intro fid g hlu
    rw [mlookup_minsert] at hlu
    by_cases hid : fid = id
    · rw [if_pos hid] at hlu
      cases hlu
      simpa using hfills id f hm
    · rw [if_neg hid] at hlu
      exact hfills fid g hlu
  | refundF caller now id =>
    obtain ⟨f, swap, hmf, hms, -, -, -, -, hle, rfl, -⟩ := refund_fill_ok h
    have hfa : 0 < f.fill_amount := hfills id f hmf
    obtain ⟨hsum, -⟩ := hswaps f.parent_swap_id swap hms
    constructor
    · intro sid sw hlu
      rw [mlookup_minsert] at hlu
      by_cases hid : sid = f.parent_swap_id
      · rw [if_pos hid] at hlu
        cases hlu
        constructor
        · simp
          omega
        · simp
          omega
      · rw [if_neg hid] at hlu
        exact hswaps sid sw hlu
    · intro fid g hlu
      rw [mlookup_minsert] at hlu
      by_cases hid : fid = id
      · rw [if_pos hid] at hlu
        cases hlu
        simpa using hfa
      · rw [if_neg hid] at hlu
        exact hfills fid g hlu

theorem consInv_run (s : State) (cs : List HCall) (hinv : ConsInv s) :
    ConsInv (hrun s cs).1 := by
  induction cs generalizing s with
  | nil => simpa [hrun]
  | cons c cs ih =>
    cases he : hstep s c with
    | error e =>
      simp only [hrun, he]
      exact ih s hinv
    | ok p =>
      obtain ⟨s1, ts⟩ := p
      simp only [hrun, he]
      exact ih s1 (consInv_step hinv he)

end HtlcNear

namespace HtlcNear

open Enju

/-! ## Transfer-count invariant for `htlc-near` (claims C1, C3)

Every stored record's `withdrawn` / `refunded` (resp. `completed` /
`refunded`) flags count exactly the ledger transfers made for its id, and
the two flags are never both set; absent ids have no transfers.  Preserved
by every call as long as no create overwrites an existing record. -/

/-- Transfers expected for a pair of finalization flags. -/
def flagCount (a b : Bool) : Nat := a.toNat + b.toNat

/-- Counting invariant tying the stores to the transfer log. -/
def PayInv (s : State) (log : List Transfer) : Prop :=
  (∀ id, countT log .contractsT id =
     (match mlookup s.contracts id with
      | none => 0
      | some c => flagCount c.withdrawn c.refunded)) ∧
  (∀ id c, mlookup s.contracts id = some c →
     ¬ (c.withdrawn = true ∧ c.refunded = true)) ∧
  (∀ id, countT log .crossT id =
     (match mlookup s.cross_chain_contracts id with
      | none => 0
      | some c => flagCount c.withdrawn c.refunded)) ∧
  (∀ id c, mlookup s.cross_chain_contracts id = some c →
     ¬ (c.withdrawn = true ∧ c.refunded = true)) ∧
  (∀ id, countT log .fillT id =
     (match mlookup s.fills id with
      | none => 0
      | some f => flagCount f.completed f.refunded)) ∧
  (∀ id f, mlookup s.fills id = some f →
     ¬ (f.completed = true ∧ f.refunded = true))

theorem payInv_init (owner : String) : PayInv (init owner) [] := by
  refine ⟨?_, ?_, ?_, ?_, ?_, ?_⟩ <;> intro id <;>
    simp [init, mlookup, countT]

theorem payInv_step {s s' : State} {c : HCall} {ts log : List Transfer}
    (hinv : PayInv s log) (h : hstep s c = .ok (s', ts))
    (hfr : hfresh s c = true) : PayInv s' (log ++ ts) := by
  obtain ⟨hc1, hc2, hx1, hx2, hf1, hf2⟩ := hinv
  cases c with
  | create caller dep now recv hl tl eth =>
    simp only [hstep] at h
    obtain ⟨⟨s1, rid⟩, hr, hy⟩ := except_map_ok h
    simp only [Prod.mk.injEq] at hy
    obtain ⟨rfl, rfl⟩ := hy
    obtain ⟨-, -, -, hrid, rfl⟩ := create_htlc_ok hr
    simp only [hfresh, Option.isNone_iff_eq_none] at hfr
    rw [← hrid] at hfr
    refine ⟨?_, ?_, by simpa [countT_append] using hx1,
            hx2, by simpa [countT_append] using hf1, hf2⟩
    · intro id
      rw [countT_append, countT_nil, mlookup_minsert]
      by_cases hid : id = rid
      · subst hid
        rw [if_pos rfl]
        have := hc1 id
        rw [hfr] at this
        simpa [flagCount] using this
      · rw [if_neg hid]
        simpa using hc1 id
    · intro id cc hlu
      rw [mlookup_minsert] at hlu
      by_cases hid : id = rid
      · rw [if_pos hid] at hlu
        cases hlu
        simp
      · rw [if_neg hid] at hlu
        exact hc2 id cc hlu
  | withdrawC caller now id pre =>
    obtain ⟨c, hm, hw, hrf, -, -, -, rfl, rfl⟩ := withdraw_ok h
    refine ⟨?_, ?_, by simpa [countT_append, countT_cons] using hx1, hx2,
            by simpa [countT_append, countT_cons] using hf1, hf2⟩
    · intro id'
      rw [countT_append, countT_cons, countT_nil, mlookup_minsert]
      by_cases hid : id' = id
      · subst hid
        rw [if_pos rfl]
        have := hc1 id'
        rw [hm] at this
        simp [this, hw, hrf, flagCount]
      · rw [if_neg hid]
        have hid' : ¬ id = id' := fun hh => hid hh.symm
        have := hc1 id'
        simp [this, hid, hid']
    · intro id' cc hlu
      rw [mlookup_minsert] at hlu
      by_cases hid : id' = id
      · rw [if_pos hid] at hlu
        cases hlu
        simp [hrf]
      · rw [if_neg hid] at hlu
        exact hc2 id' cc hlu
  | refundC caller now id =>
    obtain ⟨c, hm, hw, hrf, -, -, rfl, rfl⟩ := refund_ok h
    refine ⟨?_, ?_, by simpa [countT_append, countT_cons] using hx1, hx2,
            by simpa [countT_append, countT_cons] using hf1, hf2⟩
    · intro id'
      rw [countT_append, countT_cons, countT_nil, mlookup_minsert]
      by_cases hid : id' = id
      · subst hid
        rw [if_pos rfl]
        have := hc1 id'
        rw [hm] at this
        simp [this, hw, hrf, flagCount]
      · rw [if_neg hid]
        have hid' : ¬ id = id' := fun hh => hid hh.symm
        have := hc1 id'
        simp [this, hid, hid']
    · intro id' cc hlu
      rw [mlookup_minsert] at hlu
      by_cases hid : id' = id
      · rw [if_pos hid] at hlu
        cases hlu
        simp [hw]
      · rw [if_neg hid] at hlu
        exact hc2 id' cc hlu
  | createCC caller dep now recv hl tl eth =>
    simp only [hstep] at h
    obtain ⟨⟨s1, rid⟩, hr, hy⟩ := except_map_ok h
    simp only [Prod.mk.injEq] at hy
    obtain ⟨rfl, rfl⟩ := hy
    obtain ⟨-, -, -, hrid, rfl⟩ := create_cc_ok hr
    simp only [hfresh, Option.isNone_iff_eq_none] at hfr
    rw [← hrid] at hfr
    refine ⟨by simpa [countT_append] using hc1, hc2, ?_, ?_,
            by simpa [countT_append] using hf1, hf2⟩
    · intro id
      rw [countT_append, countT_nil, mlookup_minsert]
      by_cases hid : id = rid
      · subst hid
        rw [if_pos rfl]
        have := hx1 id
        rw [hfr] at this
        simpa [flagCount] using this
      · rw [if_neg hid]
        simpa using hx1 id
    · intro id cc hlu
      rw [mlookup_minsert] at hlu
      by_cases hid : id = rid
      · rw [if_pos hid] at hlu
        cases hlu
        simp
      · rw [if_neg hid] at hlu
        exact hx2 id cc hlu
  | completeCC caller now id pre ethTx =>
    obtain ⟨c, hm, hw, hrf, -, -, -, rfl, rfl⟩ := complete_cc_ok h
    refine ⟨by simpa [countT_append, countT_cons] using hc1, hc2, ?_, ?_,
            by simpa [countT_append, countT_cons] using hf1, hf2⟩
    · intro id'
      rw [countT_append, countT_cons, countT_nil, mlookup_minsert]
      by_cases hid : id' = id
      · subst hid
        rw [if_pos rfl]
        have := hx1 id'
        rw [hm] at this
        simp [this, hw, hrf, flagCount]
      · rw [if_neg hid]
        have hid' : ¬ id = id' := fun hh => hid hh.symm
        have := hx1 id'
        simp [this, hid, hid']
    · intro id' cc hlu
      rw [mlookup_minsert] at hlu
      by_cases hid : id' = id
      · rw [if_pos hid] at hlu
        cases hlu
        simp [hrf]
      · rw [if_neg hid] at hlu
        exact hx2 id' cc hlu
  | refundCC caller now id =>
    obtain ⟨c, hm, hw, hrf, -, -, rfl, rfl⟩ := refund_cc_ok h
    refine ⟨by simpa [countT_append, countT_cons] using hc1, hc2, ?_, ?_,
            by simpa [countT_append, countT_cons] using hf1, hf2⟩
    · intro id'
      rw [countT_append, countT_cons, countT_nil, mlookup_minsert]
      by_cases hid : id' = id
      · subst hid
        rw [if_pos rfl]
        have := hx1 id'
        rw [hm] at this
        simp [this, hw, hrf, flagCount]
      · rw [if_neg hid]
        have hid' : ¬ id = id' := fun hh => hid hh.symm
        have := hx1 id'
        simp [this, hid, hid']
    · intro id' cc hlu
      rw [mlookup_minsert] at hlu
      by_cases hid : id' = id
      · rw [if_pos hid] at hlu
        cases hlu
        simp [hw]
      · rw [if_neg hid] at hlu
        exact hx2 id' cc hlu
  | createFS caller now recv total eth tl =>
    simp only [hstep] at h
    obtain ⟨⟨s1, rid⟩, hr, hy⟩ := except_map_ok h
    simp only [Prod.mk.injEq] at hy
    obtain ⟨rfl, rfl⟩ := hy
    obtain ⟨-, -, -, rfl⟩ := create_fill_swap_ok hr
    exact ⟨by simpa [countT_append] using hc1, hc2,
           by simpa [countT_append] using hx1, hx2,
           by simpa [countT_append] using hf1, hf2⟩
  | createF caller dep now swapId hl amt =>
    simp only [hstep] at h
    obtain ⟨⟨s1, rid⟩, hr, hy⟩ := except_map_ok h
    simp only [Prod.mk.injEq] at hy
    obtain ⟨rfl, rfl⟩ := hy
    obtain ⟨swap, hm, -, -, -, -, -, -, hrid, rfl⟩ := create_fill_ok hr
    simp only [hfresh, Option.isNone_iff_eq_none] at hfr
    rw [← hrid] at hfr
    refine ⟨by simpa [countT_append] using hc1, hc2,
            by simpa [countT_append] using hx1, hx2, ?_, ?_⟩
    · intro id
      rw [countT_append, countT_nil, mlookup_minsert]
      by_cases hid : id = rid
      · subst hid
        rw [if_pos rfl]
        have := hf1 id
        rw [hfr] at this
        simpa [flagCount] using this
      · rw [if_neg hid]
        simpa using hf1 id
    · intro id f hlu
      rw [mlookup_minsert] at hlu
      by_cases hid : id = rid
      · rw [if_pos hid] at hlu
        cases hlu
        simp
      · rw [if_neg hid] at hlu
        exact hf2 id f hlu
  | completeF caller now id pre ethTx =>
    obtain ⟨f, hm, hw, hrf, -, -, -, rfl, rfl⟩ := complete_fill_ok h
    refine ⟨by simpa [countT_append, countT_cons] using hc1, hc2,
            by simpa [countT_append, countT_cons] using hx1, hx2, ?_, ?_⟩
    · intro id'
      rw [countT_append, countT_cons, countT_nil, mlookup_minsert]
      by_cases hid : id' = id
      · subst hid
        rw [if_pos rfl]
        have := hf1 id'
        rw [hm] at this
        simp [this, hw, hrf, flagCount]
      · rw [if_neg hid]
        have hid' : ¬ id = id' := fun hh => hid hh.symm
        have := hf1 id'
        simp [this, hid, hid']
    · intro id' ff hlu
      rw [mlookup_minsert] at hlu
      by_cases hid : id' = id
      · rw [if_pos hid] at hlu
        cases hlu
        simp [hrf]
      · rw [if_neg hid] at hlu
        exact hf2 id' ff hlu
  | refundF caller now id =>
    obtain ⟨f, swap, hmf, hms, hw, hrf, -, -, -, rfl, rfl⟩ := refund_fill_ok h
    refine ⟨by simpa [countT_append, countT_cons] using hc1, hc2,
            by simpa [countT_append, countT_cons] using hx1, hx2, ?_, ?_⟩
    · intro id'
      rw [countT_append, countT_cons, countT_nil, mlookup_minsert]
      by_cases hid : id' = id
      · subst hid
        rw [if_pos rfl]
        have := hf1 id'
        rw [hmf] at this
        simp [this, hw, hrf, flagCount]
      · rw [if_neg hid]
        have hid' : ¬ id = id' := fun hh => hid hh.symm
        have := hf1 id'
        simp [this, hid, hid']
    · intro id' ff hlu
      rw [mlookup_minsert] at hlu
      by_cases hid : id' = id
      · rw [if_pos hid] at hlu
        cases hlu
        simp [hw]
      · rw [if_neg hid] at hlu
        exact hf2 id' ff hlu

end HtlcNear

namespace HtlcNear

open Enju

theorem payInv_run (s : State) (log : List Transfer) (cs : List HCall)
    (hinv : PayInv s log) (hok : (hrun s cs).2.2 = true) :
    PayInv (hrun s cs).1 (log ++ (hrun s cs).2.1) := by
  induction cs generalizing s log with
  | nil => simpa [hrun]
  | cons c cs ih =>
    cases he : hstep s c with
    | error e =>
      simp only [hrun, he] at hok ⊢
      exact ih s log hinv hok
    | ok p =>
      obtain ⟨s1, ts⟩ := p
      simp only [hrun, he, Bool.and_eq_true] at hok ⊢
      obtain ⟨hfr, hok⟩ := hok
      have := ih s1 (log ++ ts) (payInv_step hinv he hfr) hok
      simpa [List.append_assoc] using this

end HtlcNear

namespace Fusion

open Enju

/-! ## Transfer-count invariant for `fusion-htlc` (claims C1, C3)

A stored swap's transfer count equals one per recorded claimer plus one if
it was refunded (so swap ids are paid once per partial claim, not once per
id); request ids are paid at most once as long as `request_eth_swap` never
re-derives an id that was already used (ids ever used are tracked in
`used`). -/

/-- Counting invariant tying the fusion stores to the transfer log. -/
def FPayInv (s : State) (log : List Transfer) (used : List String) : Prop :=
  (∀ id, countT log .swapT id =
     (match mlookup s.swaps id with
      | none => 0
      | some sw => sw.claimers.length + sw.is_refunded.toNat)) ∧
  (∀ id, countT log .ethReqT id ≤ 1) ∧
  (∀ id req, mlookup s.eth_swap_requests id = some req →
     countT log .ethReqT id = 0 ∧ id ∈ used) ∧
  (∀ id, ¬ id ∈ used →
     countT log .ethReqT id = 0 ∧ mlookup s.eth_swap_requests id = none)

theorem fPayInv_init (owner : String) : FPayInv (init owner) [] [] := by
  refine ⟨?_, ?_, ?_, ?_⟩ <;> intro id <;>
    simp [init, mlookup, countT]

theorem fPayInv_step {s s' : State} {c : FCall} {ts log : List Transfer}
    {used : List String}
    (hinv : FPayInv s log used) (h : fstep s c = .ok (s', ts))
    (hfr : ffresh used c = true) :
    FPayInv s' (log ++ ts) (fused c ++ used) := by
  obtain ⟨hs1, he1, he2, he3⟩ := hinv
  cases c with
  | initiate caller dep now recv hl tl ethTx =>
    simp only [fstep] at h
    obtain ⟨⟨s1, rid⟩, hr, hy⟩ := except_map_ok h
    simp only [Prod.mk.injEq] at hy
    obtain ⟨rfl, rfl⟩ := hy
    obtain ⟨-, -, -, -, hnone, rfl⟩ := initiate_swap_ok hr
    refine ⟨?_, by simpa [countT_append] using he1,
            by simpa [fused, countT_append] using he2,
            by simpa [fused, countT_append] using he3⟩
    intro id
    rw [countT_append, countT_nil, mlookup_minsert]
    by_cases hid : id = rid
    · subst hid
      rw [if_pos rfl]
      have := hs1 id
      rw [hnone] at this
      simpa using this
    · rw [if_neg hid]
      simpa using hs1 id
  | claim caller now id secret amount =>
    obtain ⟨swap, hm, -, -, -, -, -, -, -, rfl, rfl⟩ := claim_swap_ok h
    refine ⟨?_, ?_, ?_, ?_⟩
    · intro id'
      rw [countT_append, countT_cons, countT_nil, mlookup_minsert]
      by_cases hid : id' = id
      · subst hid
        rw [if_pos rfl]
        have := hs1 id'
        rw [hm] at this
        dsimp only [] at this
        simp [this]
        exact Nat.add_right_comm _ _ _
      · rw [if_neg hid]
        have hid' : ¬ id = id' := fun hh => hid hh.symm
        have := hs1 id'
        simp [this, hid, hid']
    · intro id'
      have := he1 id'
      simpa [countT_append, countT_cons] using this
    · intro id' req hlu
      have := he2 id' req hlu
      simpa [fused, countT_append, countT_cons] using this
    · intro id' hnu
      simp only [fused, List.nil_append] at hnu
      have := he3 id' hnu
      simpa [countT_append, countT_cons] using this
  | refundS caller now id =>
    obtain ⟨swap, hm, -, hrf, -, -, -, rfl, rfl⟩ := refund_swap_ok h
    refine ⟨?_, ?_, ?_, ?_⟩
    · intro id'
      rw [countT_append, countT_cons, countT_nil, mlookup_minsert]
      by_cases hid : id' = id
      · subst hid
        rw [if_pos rfl]
        have := hs1 id'
        rw [hm] at this
        simp [this, hrf]
      · rw [if_neg hid]
        have hid' : ¬ id = id' := fun hh => hid hh.symm
        have := hs1 id'
        simp [this, hid, hid']
    · intro id'
      have := he1 id'
      simpa [countT_append, countT_cons] using this
    · intro id' req hlu
      have := he2 id' req hlu
      simpa [fused, countT_append, countT_cons] using this
    · intro id' hnu
      simp only [fused, List.nil_append] at hnu
      have := he3 id' hnu
      simpa [countT_append, countT_cons] using this
  | cleanup now id =>
    simp only [fstep] at h
    cases h
    rcases cleanup_cases s now id with hcl | ⟨swap, hm, hcl⟩ <;> rw [hcl]
    · exact ⟨by simpa [countT_append] using hs1,
             by simpa [countT_append] using he1,
             by simpa [fused, countT_append] using he2,
             by simpa [fused, countT_append] using he3⟩
    · refine ⟨?_, by simpa [countT_append] using he1,
              by simpa [fused, countT_append] using he2,
              by simpa [fused, countT_append] using he3⟩
      intro id'
      rw [countT_append, countT_nil, mlookup_minsert]
      by_cases hid : id' = id
      · subst hid
        rw [if_pos rfl]
        have := hs1 id'
        rw [hm] at this
        simpa using this
      · rw [if_neg hid]
        simpa using hs1 id'
  | request caller dep now er et hl tl ps =>
    simp only [fstep] at h
    obtain ⟨⟨s1, rid⟩, hr, hy⟩ := except_map_ok h
    simp only [Prod.mk.injEq] at hy
    obtain ⟨rfl, rfl⟩ := hy
    obtain ⟨-, -, -, -, -, hrid, rfl⟩ := request_ok hr
    simp only [ffresh, decide_eq_true_eq] at hfr
    subst hrid
    obtain ⟨hcnt0, hab⟩ := he3 (ethReqId now) hfr
    refine ⟨by simpa [countT_append] using hs1,
            by simpa [countT_append] using he1, ?_, ?_⟩
    · intro id' req hlu
      rw [mlookup_minsert] at hlu
      rw [countT_append, countT_nil]
      by_cases hid : id' = ethReqId now
      · subst hid
        exact ⟨by simpa using hcnt0, by simp [fused]⟩
      · rw [if_neg hid] at hlu
        obtain ⟨hc, hu⟩ := he2 id' req hlu
        refine ⟨by simpa using hc, ?_⟩
        simp only [fused, List.mem_append]
        exact Or.inr hu
    · intro id' hnu
      simp only [fused, List.mem_append, List.mem_singleton, not_or] at hnu
      obtain ⟨hne, hnu⟩ := hnu
      obtain ⟨hc, ha⟩ := he3 id' hnu
      refine ⟨by simpa [countT_append] using hc, ?_⟩
      rw [mlookup_minsert, if_neg (by simpa [ethReqId] using hne)]
      exact ha
  | completeE now id secret recip =>
    obtain ⟨req, hm, -, -, rfl, rfl⟩ := complete_eth_ok h
    obtain ⟨hc0, hu⟩ := he2 id req hm
    refine ⟨?_, ?_, ?_, ?_⟩
    · intro id'
      have := hs1 id'
      simpa [countT_append, countT_cons] using this
    · intro id'
      rw [countT_append, countT_cons, countT_nil]
      by_cases hid : id = id'
      · subst hid
        simp [hc0]
      · have := he1 id'
        simp [hid]
        omega
    · intro id' req' hlu
      rw [mlookup_mremove] at hlu
      by_cases hid : id' = id
      · rw [if_pos hid] at hlu
        cases hlu
      · rw [if_neg hid] at hlu
        obtain ⟨hc, hu'⟩ := he2 id' req' hlu
        refine ⟨?_, by simpa [fused] using hu'⟩
        rw [countT_append, countT_cons, countT_nil]
        have hid' : ¬ id = id' := fun hh => hid hh.symm
        simp [hc, hid']
    · intro id' hnu
      simp only [fused, List.nil_append] at hnu
      obtain ⟨hc, ha⟩ := he3 id' hnu
      have hid : ¬ id = id' := by
        intro hh
        subst hh
        rw [hm] at ha
        cases ha
      refine ⟨?_, ?_⟩
      · rw [countT_append, countT_cons, countT_nil]
        simp [hc, hid]
      · rw [mlookup_mremove, if_neg (fun hh => hid hh.symm)]
        exact ha
  | refundE now id =>
    obtain ⟨req, hm, -, rfl, rfl⟩ := refund_eth_ok h
    obtain ⟨hc0, hu⟩ := he2 id req hm
    refine ⟨?_, ?_, ?_, ?_⟩
    · intro id'
      have := hs1 id'
      simpa [countT_append, countT_cons] using this
    · intro id'
      rw [countT_append, countT_cons, countT_nil]
      by_cases hid : id = id'
      · subst hid
        simp [hc0]
      · have := he1 id'
        simp [hid]
        omega
    · intro id' req' hlu
      rw [mlookup_mremove] at hlu
      by_cases hid : id' = id
      · rw [if_pos hid] at hlu
        cases hlu
      · rw [if_neg hid] at hlu
        obtain ⟨hc, hu'⟩ := he2 id' req' hlu
        refine ⟨?_, by simpa [fused] using hu'⟩
        rw [countT_append, countT_cons, countT_nil]
        have hid' : ¬ id = id' := fun hh => hid hh.symm
        simp [hc, hid']
    · intro id' hnu
      simp only [fused, List.nil_append] at hnu
      obtain ⟨hc, ha⟩ := he3 id' hnu
      have hid : ¬ id = id' := by
        intro hh
        subst hh
        rw [hm] at ha
        cases ha
      refine ⟨?_, ?_⟩
      · rw [countT_append, countT_cons, countT_nil]
        simp [hc, hid]
      · rw [mlookup_mremove, if_neg (fun hh => hid hh.symm)]
        exact ha

theorem fPayInv_run (s : State) (log : List Transfer) (used : List String)
    (cs : List FCall) (hinv : FPayInv s log used)
    (hok : (frun s used cs).2.2 = true) :
    ∃ used', FPayInv (frun s used cs).1 (log ++ (frun s used cs).2.1)
      used' := by
  induction cs generalizing s log used with
  | nil => exact ⟨used, by simpa [frun]⟩
  | cons c cs ih =>
    cases he : fstep s c with
    | error e =>
      simp only [frun, he] at hok ⊢
      exact ih s log used hinv hok
    | ok p =>
      obtain ⟨s1, ts⟩ := p
      simp only [frun, he, Bool.and_eq_true] at hok ⊢
      obtain ⟨hfr, hok⟩ := hok
      obtain ⟨u', hinv'⟩ :=
        ih s1 (log ++ ts) (fused c ++ used) (fPayInv_step hinv he hfr) hok
      exact ⟨u', by simpa [List.append_assoc] using hinv'⟩

end Fusion

/-! # Claim theorems -/

open Enju

/-- **C2** (confirmed).  Conservation: for every partial-fill order in any
state reachable by any call sequence from a fresh `HTLCNear` contract,
`filled_amount + remaining_amount = total_amount`, and `completed` holds
exactly when `remaining_amount = 0`.  The invariant is established by
`create_partial_fill_swap` and preserved by every operation
(`create_partial_fill` and `refund_partial_fill` are the only ones that
mutate the aggregates; completion does not touch them). -/
theorem c2_conservation (owner : String) (cs : List HtlcNear.HCall)
    (id : String) (sw : HtlcNear.FillSwap)
    (hlu : mlookup
      ((HtlcNear.hrun (HtlcNear.init owner) cs).1).fill_swaps id
      = some sw) :
    sw.filled_amount + sw.remaining_amount = sw.total_amount ∧
    (sw.completed = true ↔ sw.remaining_amount = 0) :=
  (HtlcNear.consInv_run _ cs (HtlcNear.consInv_init owner)).1 id sw hlu

/-- Witness for C2 at a concrete two-call trace: create an order of 1000,
then a fill of 600; the stored order shows `600 + 400 = 1000` and is not
completed. -/
theorem c2_conservation_witness :
    (600 : Nat) + 400 = 1000 ∧ ((false : Bool) = true ↔ (400 : Nat) = 0) :=
  c2_conservation "own"
    [HtlcNear.HCall.createFS "alice" 10 "bob" 1000 "eth" 100,
     HtlcNear.HCall.createF "alice" 600 11 "pf-swap-alice-1000-10"
       (List.replicate 32 0) 600]
    "pf-swap-alice-1000-10"
    ⟨"pf-swap-alice-1000-10", "alice", "bob", 1000, 600, 400, "eth", 100,
     false, 10, 1⟩ (by decide)

namespace HtlcNear

/-- `create_partial_fill` succeeds whenever all its preconditions hold. -/
theorem create_fill_succeeds (s : State) (caller : String) (dep now : Nat)
    (swapId : String) (hl : List Nat) (amt : Nat) (swap : FillSwap)
    (hm : mlookup s.fill_swaps swapId = some swap)
    (hsend : caller = swap.sender) (hcomp : swap.completed = false)
    (hamt : 0 < amt) (hle : amt ≤ swap.remaining_amount) (hdep : dep = amt)
    (hhl : hl ≠ []) (hlen : hl.length = 32) :
    ∃ r, create_fill s caller dep now swapId hl amt = .ok r := by
  unfold create_fill
  rw [hm]
  dsimp only []
  rw [if_neg (by simp [hsend]), if_neg (by simp [hcomp]),
      if_neg (by omega), if_neg (by omega), if_neg (by omega),
      if_neg hhl, if_neg (by omega)]
  exact ⟨_, rfl⟩

end HtlcNear

/-- **C9** (confirmed).  For every fill that is open (neither completed nor
refunded), called by the fill's sender strictly after its deadline,
`refund_partial_fill` marks the fill refunded, decrements the parent's
`filled_amount` by `fill_amount`, increments its `remaining_amount` by
`fill_amount`, unconditionally clears the parent's `completed` flag, and
transfers `fill_amount` back to the sender; afterwards a new fill of any
positive amount at most the returned capacity can be created against the
same order.  (The hypothesis `fill_amount ≤ filled_amount` holds in every
reachable state; it guards the checked `u128` subtraction.) -/
theorem c9_refund_fill_effect_and_reopening
    (s : HtlcNear.State) (caller : String) (now : Nat) (fid : String)
    (f : HtlcNear.Fill) (swap : HtlcNear.FillSwap)
    (hmf : mlookup s.fills fid = some f)
    (hms : mlookup s.fill_swaps f.parent_swap_id = some swap)
    (hco : f.completed = false) (hrf : f.refunded = false)
    (hcall : caller = f.sender) (htl : f.timelock < now)
    (hle : f.fill_amount ≤ swap.filled_amount) :
    ∃ s', HtlcNear.refund_fill s caller now fid
        = .ok (s', [⟨.fillT, fid, f.sender, f.fill_amount⟩]) ∧
      mlookup s'.fills fid = some { f with refunded := true } ∧
      mlookup s'.fill_swaps f.parent_swap_id = some
        { swap with
          filled_amount := swap.filled_amount - f.fill_amount,
          remaining_amount := swap.remaining_amount + f.fill_amount,
          completed := false } ∧
      (∀ amt' (hl' : List Nat) (now' : Nat), 0 < amt' →
        amt' ≤ swap.remaining_amount + f.fill_amount →
        hl' ≠ [] → hl'.length = 32 →
        ∃ r, HtlcNear.create_fill s' swap.sender amt' now' f.parent_swap_id
          hl' amt' = .ok r) := by
  unfold HtlcNear.refund_fill
  rw [hmf]
  dsimp only []
  rw [if_neg (by simp [hco]), if_neg (by simp [hrf]),
      if_neg (by simp [hcall]), if_neg (by omega), hms]
  dsimp only []
  unfold Enju.subChecked
  rw [if_pos hle]
  refine ⟨_, rfl, ?_, ?_, ?_⟩
  · exact mlookup_minsert_self _ _ _
  · exact mlookup_minsert_self _ _ _
  · intro amt' hl' now' hamt' hle' hhl' hlen'
    exact HtlcNear.create_fill_succeeds _ _ _ _ _ _ _ _
      (mlookup_minsert_self _ _ _) rfl rfl hamt' hle' rfl hhl' hlen'

/-- Witness for C9: a concrete open fill of 400 under an order
`total = 1000, filled = 1000, remaining = 0, completed = true`; the refund
succeeds, reopens the order to `filled = 600, remaining = 400,
completed = false`, and a new fill of 400 can then be created. -/
theorem c9_refund_fill_witness :
    ∃ s', HtlcNear.refund_fill
        ⟨[], [],
         [("sid", ⟨"sid", "alice", "bob", 1000, 1000, 0, "e", 50, true, 1,
           2⟩)],
         [("fid", ⟨"fid", "sid", "alice", "bob", 400,
           List.replicate 32 0, 50, false, false, "e", none, 2⟩)],
         "o", []⟩ "alice" 60 "fid"
        = .ok (s', [⟨.fillT, "fid", "alice", 400⟩]) ∧
      mlookup s'.fills "fid" = some ⟨"fid", "sid", "alice", "bob", 400,
        List.replicate 32 0, 50, false, true, "e", none, 2⟩ ∧
      mlookup s'.fill_swaps "sid" = some ⟨"sid", "alice", "bob", 1000, 600,
        400, "e", 50, false, 1, 2⟩ ∧
      (∀ amt' (hl' : List Nat) (now' : Nat), 0 < amt' →
        amt' ≤ (0 : Nat) + 400 →
        hl' ≠ [] → hl'.length = 32 →
        ∃ r, HtlcNear.create_fill s' "alice" amt' now' "sid" hl' amt'
          = .ok r) :=
  c9_refund_fill_effect_and_reopening _ "alice" 60 "fid"
    ⟨"fid", "sid", "alice", "bob", 400, List.replicate 32 0, 50, false,
     false, "e", none, 2⟩
    ⟨"sid", "alice", "bob", 1000, 1000, 0, "e", 50, true, 1, 2⟩
    (by decide) (by decide) (by decide) (by decide) (by decide) (by decide)
    (by decide)

/-- **C10** (confirmed).  `create_partial_fill` is restricted to the parent
order's sender: for every order and every caller other than the account
that created the order (including the order's receiver), fill creation
fails with "Only swap sender can create fills", and — the call having
panicked — no fill record is created. -/
theorem c10_create_fill_sender_only
    (s : HtlcNear.State) (caller : String) (dep now : Nat)
    (swapId : String) (hl : List Nat) (amt : Nat)
    (swap : HtlcNear.FillSwap)
    (hm : mlookup s.fill_swaps swapId = some swap)
    (hne : caller ≠ swap.sender) :
    HtlcNear.create_fill s caller dep now swapId hl amt
      = .error "Only swap sender can create fills" := by
  unfold HtlcNear.create_fill
  rw [hm]
  dsimp only []
  rw [if_pos hne]

/-- Witness for C10: the order's receiver "bob" cannot create a fill on
"alice"'s order. -/
theorem c10_create_fill_sender_only_witness :
    HtlcNear.create_fill
      ⟨[], [],
       [("sid", ⟨"sid", "alice", "bob", 100, 0, 100, "e", 50, false, 1,
         0⟩)],
       [], "o", []⟩ "bob" 10 2 "sid" (List.replicate 32 0) 10
      = .error "Only swap sender can create fills" :=
  c10_create_fill_sender_only _ "bob" 10 2 "sid" (List.replicate 32 0) 10
    ⟨"sid", "alice", "bob", 100, 0, 100, "e", 50, false, 1, 0⟩
    (by decide) (by decide)

namespace Enju

/-- Decidable equality for `Except`, used to evaluate concrete call
results. -/
instance {e a : Type} [DecidableEq e] [DecidableEq a] :
    DecidableEq (Except e a) := fun x y =>
  match x, y with
  | .error e1, .error e2 =>
    if h : e1 = e2 then .isTrue (by rw [h]) else .isFalse (by simp [h])
  | .ok x1, .ok x2 =>
    if h : x1 = x2 then .isTrue (by rw [h]) else .isFalse (by simp [h])
  | .error _, .ok _ => .isFalse (by simp)
  | .ok _, .error _ => .isFalse (by simp)

end Enju

namespace HtlcNear

/-- Two exclusive finalization flags admit at most one transfer. -/
theorem flagCount_le_one {a b : Bool} (h : ¬ (a = true ∧ b = true)) :
    flagCount a b ≤ 1 := by
  cases a <;> cases b <;> simp [flagCount] at h ⊢

end HtlcNear

namespace Fusion

/-- Sample secret for the concrete fusion traces. -/
def exSecret : String := "s"

/-- Commitment of the sample secret. -/
def exHashlock : String := hash_secret exSecret

/-- Swap id derived for the sample swap (`alice` → `bob`, deadline 1000). -/
def exSwapId : String := generate_swap_id "alice" "bob" exHashlock 1000

/-- Sample `initiate_swap` call locking 10 yoctoNEAR at time 1. -/
def exInitiate : FCall := .initiate "alice" 10 1 "bob" exHashlock 1000 none

end Fusion

/-- **C1 counterexample**: the claim as stated is false on the code.  In
`fusion-htlc`, `claim_swap` claims a partial amount and may succeed many
times for one swap id: after locking 10 under a commitment, two claims of
4 and 6 both succeed, so the ledger transfer capability is invoked twice
for that swap id — within a trace in which every create derived a fresh
id. -/
theorem c1_counterexample :
    countT
      (Fusion.frun (Fusion.init "o") []
        [Fusion.exInitiate,
         Fusion.FCall.claim "bob" 2 Fusion.exSwapId Fusion.exSecret 4,
         Fusion.FCall.claim "bob" 3 Fusion.exSwapId Fusion.exSecret 6]).2.1
      .swapT Fusion.exSwapId = 2 ∧
    (Fusion.frun (Fusion.init "o") []
      [Fusion.exInitiate,
       Fusion.FCall.claim "bob" 2 Fusion.exSwapId Fusion.exSecret 4,
       Fusion.FCall.claim "bob" 3 Fusion.exSwapId Fusion.exSecret 6]).2.2
      = true := by
  constructor
  · set_option maxRecDepth 1000000 in decide
  · set_option maxRecDepth 1000000 in decide

/-- **C1** (amended).  In `htlc-near`, for every escrow, cross-chain
contract, and fill id, the ledger transfer capability is invoked at most
once per id over any call sequence in which no create operation re-derives
an id that is already bound.  In `fusion-htlc`, the same holds for
cross-chain (ETH swap) request ids provided `request_eth_swap` never
re-derives a previously used id; fusion swap ids are instead paid once per
successful partial claim plus once for a refund of the remainder (the
transfer count for a stored swap equals its recorded claimer count plus
one if refunded). -/
theorem c1_at_most_once_amended :
    (∀ owner cs, (HtlcNear.hrun (HtlcNear.init owner) cs).2.2 = true →
      ∀ tag, (tag = STag.contractsT ∨ tag = STag.crossT ∨
              tag = STag.fillT) →
      ∀ id, countT (HtlcNear.hrun (HtlcNear.init owner) cs).2.1 tag id
        ≤ 1) ∧
    (∀ owner cs, (Fusion.frun (Fusion.init owner) [] cs).2.2 = true →
      (∀ id, countT (Fusion.frun (Fusion.init owner) [] cs).2.1
        .ethReqT id ≤ 1) ∧
      (∀ id sw,
        mlookup ((Fusion.frun (Fusion.init owner) [] cs).1).swaps id
          = some sw →
        countT (Fusion.frun (Fusion.init owner) [] cs).2.1 .swapT id
          = sw.claimers.length + sw.is_refunded.toNat)) := by
  constructor
  · intro owner cs hok tag htag id
    have hinv := HtlcNear.payInv_run (HtlcNear.init owner) [] cs
      (HtlcNear.payInv_init owner) hok
    rw [List.nil_append] at hinv
    obtain ⟨hc1, hc2, hx1, hx2, hf1, hf2⟩ := hinv
    rcases htag with rfl | rfl | rfl
    · rw [hc1 id]
      cases hm : mlookup
          ((HtlcNear.hrun (HtlcNear.init owner) cs).1).contracts id with
      | none => simp [hm]
      | some c =>
        simp only [hm]
        exact HtlcNear.flagCount_le_one (hc2 id c hm)
    · rw [hx1 id]
      cases hm : mlookup
          ((HtlcNear.hrun (HtlcNear.init owner) cs).1).cross_chain_contracts
          id with
      | none => simp [hm]
      | some c =>
        simp only [hm]
        exact HtlcNear.flagCount_le_one (hx2 id c hm)
    · rw [hf1 id]
      cases hm : mlookup
          ((HtlcNear.hrun (HtlcNear.init owner) cs).1).fills id with
      | none => simp [hm]
      | some f =>
        simp only [hm]
        exact HtlcNear.flagCount_le_one (hf2 id f hm)
  · intro owner cs hok
    obtain ⟨u', hinv⟩ := Fusion.fPayInv_run (Fusion.init owner) [] [] cs
      (Fusion.fPayInv_init owner) hok
    rw [List.nil_append] at hinv
    obtain ⟨hs1, he1, -, -⟩ := hinv
    refine ⟨he1, fun id sw hm => ?_⟩
    rw [hs1 id, hm]

/-- Witness for C1 at concrete inputs: a create/refund pair on `htlc-near`
pays its escrow id at most once, and the empty fusion trace pays any
request id at most once. -/
theorem c1_at_most_once_witness :
    countT (HtlcNear.hrun (HtlcNear.init "o")
      [HtlcNear.HCall.create "alice" 5 1 "bob" (List.replicate 32 0) 10 "e",
       HtlcNear.HCall.refundC "alice" 11
         (HtlcNear.htlcId "alice" "bob" 5 1)]).2.1
      .contractsT (HtlcNear.htlcId "alice" "bob" 5 1) ≤ 1 ∧
    countT (Fusion.frun (Fusion.init "o") [] []).2.1 .ethReqT "x" ≤ 1 :=
  ⟨c1_at_most_once_amended.1 "o"
    [HtlcNear.HCall.create "alice" 5 1 "bob" (List.replicate 32 0) 10 "e",
     HtlcNear.HCall.refundC "alice" 11 (HtlcNear.htlcId "alice" "bob" 5 1)]
    (by decide) .contractsT (Or.inl rfl) _,
   (c1_at_most_once_amended.2 "o" [] rfl).1 "x"⟩

/-- **C3 counterexample**: the claim as stated is false on the code.  In
`fusion-htlc`, after a successful partial claim of 4 out of 10, a second
claim on the same swap id does not fail with an already-finalized error —
it succeeds and pays again. -/
theorem c3_counterexample :
    (Fusion.fstep
      (Fusion.frun (Fusion.init "o") []
        [Fusion.exInitiate,
         Fusion.FCall.claim "bob" 2 Fusion.exSwapId Fusion.exSecret 4]).1
      (Fusion.FCall.claim "bob" 3 Fusion.exSwapId Fusion.exSecret 6)).map
      (fun r => r.2)
      = .ok [⟨.swapT, Fusion.exSwapId, "bob", 6⟩] := by
  set_option maxRecDepth 1000000 in decide

/-- **C3** (amended).  For `htlc-near` escrows, in any call sequence in
which no create re-derives a bound id, at most one finalization (withdraw
or refund) ever succeeds per escrow id; a withdraw attempted on an already
withdrawn escrow always fails with "Already withdrawn" and a refund on an
already refunded escrow with "Already refunded", regardless of the secret
or the caller.  For `fusion-htlc` swaps, claims may succeed repeatedly
while the swap is open, but once `is_completed` is set (fully claimed, or
refunded — refund sets both flags) any further claim fails with
"Swap already completed". -/
theorem c3_single_finalization_amended :
    (∀ owner cs, (HtlcNear.hrun (HtlcNear.init owner) cs).2.2 = true →
      ∀ id, countT (HtlcNear.hrun (HtlcNear.init owner) cs).2.1
        .contractsT id ≤ 1) ∧
    (∀ (s : HtlcNear.State) caller now cid (pre : List Nat) c,
      mlookup s.contracts cid = some c → c.withdrawn = true →
      HtlcNear.withdraw s caller now cid pre
        = .error "Already withdrawn") ∧
    (∀ (s : HtlcNear.State) caller now cid c,
      mlookup s.contracts cid = some c → c.withdrawn = false →
      c.refunded = true →
      HtlcNear.refund s caller now cid = .error "Already refunded") ∧
    (∀ (s : Fusion.State) caller now sid secret amt sw,
      mlookup s.swaps sid = some sw → sw.is_completed = true →
      Fusion.claim_swap s caller now sid secret amt
        = .error "Swap already completed") := by
  refine ⟨?_, ?_, ?_, ?_⟩
  · intro owner cs hok id
    have hinv := HtlcNear.payInv_run (HtlcNear.init owner) [] cs
      (HtlcNear.payInv_init owner) hok
    rw [List.nil_append] at hinv
    obtain ⟨hc1, hc2, -, -, -, -⟩ := hinv
    rw [hc1 id]
    cases hm : mlookup
        ((HtlcNear.hrun (HtlcNear.init owner) cs).1).contracts id with
    | none => simp [hm]
    | some c =>
      simp only [hm]
      exact HtlcNear.flagCount_le_one (hc2 id c hm)
  · intro s caller now cid pre c hm hw
    unfold HtlcNear.withdraw
    rw [hm]
    dsimp only []
    rw [if_pos hw]
  · intro s caller now cid c hm hw hr
    unfold HtlcNear.refund
    rw [hm]
    dsimp only []
    rw [if_neg (by simp [hw]), if_pos hr]
  · intro s caller now sid secret amt sw hm hc
    unfold Fusion.claim_swap
    rw [hm]
    dsimp only []
    rw [if_pos hc]

/-- Witness for C3 at concrete inputs: on a withdrawn escrow a second
withdraw fails "Already withdrawn"; on a refunded escrow a second refund
fails "Already refunded"; on a completed fusion swap a claim fails
"Swap already completed"; and a concrete create/withdraw trace pays its id
at most once. -/
theorem c3_single_finalization_witness :
    countT (HtlcNear.hrun (HtlcNear.init "o")
      [HtlcNear.HCall.create "alice" 5 1 "bob" (List.replicate 32 0) 10
        "e"]).2.1 .contractsT "z" ≤ 1 ∧
    HtlcNear.withdraw
      ⟨[("cid", ⟨"alice", "bob", 5, List.replicate 32 0, 10, true, false,
        "e"⟩)], [], [], [], "o", []⟩ "bob" 2 "cid" []
      = .error "Already withdrawn" ∧
    HtlcNear.refund
      ⟨[("cid", ⟨"alice", "bob", 5, List.replicate 32 0, 10, false, true,
        "e"⟩)], [], [], [], "o", []⟩ "alice" 20 "cid"
      = .error "Already refunded" ∧
    Fusion.claim_swap
      ⟨[("sid", ⟨"alice", "bob", 10, 0, 10, none, "h", 1000, none, true,
        false, none, [("bob", 10)]⟩)], [], "o", []⟩ "bob" 2 "sid" "s" 1
      = .error "Swap already completed" :=
  ⟨c3_single_finalization_amended.1 "o"
    [HtlcNear.HCall.create "alice" 5 1 "bob" (List.replicate 32 0) 10 "e"]
    (by decide) "z",
   c3_single_finalization_amended.2.1 _ "bob" 2 "cid" []
     ⟨"alice", "bob", 5, List.replicate 32 0, 10, true, false, "e"⟩
     (by decide) (by decide),
   c3_single_finalization_amended.2.2.1 _ "alice" 20 "cid"
     ⟨"alice", "bob", 5, List.replicate 32 0, 10, false, true, "e"⟩
     (by decide) (by decide) (by decide),
   c3_single_finalization_amended.2.2.2 _ "bob" 2 "sid" "s" 1
     ⟨"alice", "bob", 10, 0, 10, none, "h", 1000, none, true, false, none,
      [("bob", 10)]⟩ (by decide) (by decide)⟩

set_option maxRecDepth 1000000

/-- **C4 counterexample**: the claim as stated is false on the code.  In
`htlc-near` the boundary instant belongs to the *claim* window, not the
refund window: at `now = timelock` a withdraw with the correct secret
succeeds (the claim says it must fail with `Expired`), and a refund by the
sender at `now = timelock` fails with "Timelock not expired" (the claim
says refunding is allowed at or after the deadline). -/
theorem c4_counterexample :
    (HtlcNear.withdraw
      ⟨[("cid", ⟨"alice", "bob", 5, sha256 (strBytes "p"), 10, false,
        false, "e"⟩)], [], [], [], "o", []⟩ "bob" 10 "cid"
      (strBytes "p")).map (fun r => r.2)
      = .ok [⟨.contractsT, "cid", "bob", 5⟩] ∧
    HtlcNear.refund
      ⟨[("cid", ⟨"alice", "bob", 5, sha256 (strBytes "p"), 10, false,
        false, "e"⟩)], [], [], [], "o", []⟩ "alice" 10 "cid"
      = .error "Timelock not expired" := by
  constructor
  · set_option maxRecDepth 1000000 in decide
  · set_option maxRecDepth 1000000 in decide

/-- **C4** (amended).  Time-gating, per contract.  In `htlc-near` (with the
earlier checks of each operation satisfied): `withdraw` and
`complete_partial_fill` fail with "Timelock expired" exactly when
`deadline < now` (claiming is allowed up to *and including* the deadline),
while `refund` and `refund_partial_fill` fail with "Timelock not expired"
exactly when `now ≤ deadline` (refunding strictly after), and `refund`
succeeds exactly when `deadline < now`.  In `fusion-htlc`, `claim_swap`
fails with "Swap expired" exactly when `deadline ≤ now` and `refund_swap`
fails with "Swap not expired yet" exactly when `now < deadline`.  Within
each contract the claim and refund windows are exhaustive and
non-overlapping; the boundary instant lies in the claim window for
`htlc-near` and in the refund window for `fusion-htlc`. -/
theorem c4_time_gating_amended :
    (∀ (s : HtlcNear.State) caller now cid (pre : List Nat) c,
      mlookup s.contracts cid = some c → c.withdrawn = false →
      c.refunded = false → caller = c.receiver →
      (HtlcNear.withdraw s caller now cid pre = .error "Timelock expired"
        ↔ c.timelock < now)) ∧
    (∀ (s : HtlcNear.State) caller now cid c,
      mlookup s.contracts cid = some c → c.withdrawn = false →
      c.refunded = false → caller = c.sender →
      ((HtlcNear.refund s caller now cid = .error "Timelock not expired"
        ↔ now ≤ c.timelock) ∧
       ((∃ r, HtlcNear.refund s caller now cid = .ok r)
        ↔ c.timelock < now))) ∧
    (∀ (s : HtlcNear.State) caller now fid (pre : List Nat) ethTx f,
      mlookup s.fills fid = some f → f.completed = false →
      f.refunded = false → caller = f.receiver →
      (HtlcNear.complete_fill s caller now fid pre ethTx
        = .error "Timelock expired" ↔ f.timelock < now)) ∧
    (∀ (s : HtlcNear.State) caller now fid f,
      mlookup s.fills fid = some f → f.completed = false →
      f.refunded = false → caller = f.sender →
      (HtlcNear.refund_fill s caller now fid
        = .error "Timelock not expired" ↔ now ≤ f.timelock)) ∧
    (∀ (s : Fusion.State) caller now sid secret amt sw,
      mlookup s.swaps sid = some sw → sw.is_completed = false →
      sw.is_refunded = false →
      (Fusion.claim_swap s caller now sid secret amt
        = .error "Swap expired" ↔ sw.timelock ≤ now)) ∧
    (∀ (s : Fusion.State) caller now sid sw,
      mlookup s.swaps sid = some sw → sw.is_completed = false →
      sw.is_refunded = false →
      (Fusion.refund_swap s caller now sid
        = .error "Swap not expired yet" ↔ now < sw.timelock)) := by
  refine ⟨?_, ?_, ?_, ?_, ?_, ?_⟩
  · intro s caller now cid pre c hm hw hr hcall
    unfold HtlcNear.withdraw
    rw [hm]
    dsimp only []
    rw [if_neg (by simp [hw]), if_neg (by simp [hr]),
        if_neg (by simp [hcall])]
    by_cases ht : now ≤ c.timelock
    · rw [if_neg (by omega)]
      constructor
      · intro hres
        by_cases hpre : sha256 pre = c.hashlock
        · rw [if_neg (by simp [hpre])] at hres
          cases hres
        · rw [if_pos hpre] at hres
          exact absurd hres (by decide)
      · intro h'
        exact absurd h' (by omega)
    · rw [if_pos (by omega)]
      exact ⟨fun _ => (by omega), fun _ => rfl⟩
  · intro s caller now cid c hm hw hr hcall
    unfold HtlcNear.refund
    rw [hm]
    dsimp only []
    rw [if_neg (by simp [hw]), if_neg (by simp [hr]),
        if_neg (by simp [hcall])]
    by_cases ht : c.timelock < now
    · rw [if_neg (by omega)]
      refine ⟨⟨fun hres => (by cases hres), fun h' => absurd h' (by omega)⟩,
              ⟨fun _ => ht, fun _ => ⟨_, rfl⟩⟩⟩
    · rw [if_pos (by omega)]
      refine ⟨⟨fun _ => (by omega), fun _ => rfl⟩,
              ⟨fun h' => ?_, fun h' => absurd h' ht⟩⟩
      obtain ⟨r, hr'⟩ := h'
      cases hr'
  · intro s caller now fid pre ethTx f hm hw hr hcall
    unfold HtlcNear.complete_fill
    rw [hm]
    dsimp only []
    rw [if_neg (by simp [hw]), if_neg (by simp [hr]),
        if_neg (by simp [hcall])]
    by_cases ht : now ≤ f.timelock
    · rw [if_neg (by omega)]
      constructor
      · intro hres
        by_cases hpre : sha256 pre = f.hashlock
        · rw [if_neg (by simp [hpre])] at hres
          cases hres
        · rw [if_pos hpre] at hres
          exact absurd hres (by decide)
      · intro h'
        exact absurd h' (by omega)
    · rw [if_pos (by omega)]
      exact ⟨fun _ => (by omega), fun _ => rfl⟩
  · intro s caller now fid f hm hw hr hcall
    unfold HtlcNear.refund_fill
    rw [hm]
    dsimp only []
    rw [if_neg (by simp [hw]), if_neg (by simp [hr]),
        if_neg (by simp [hcall])]
    by_cases ht : f.timelock < now
    · rw [if_neg (by omega)]
      refine ⟨fun hres => ?_, fun h' => absurd h' (by omega)⟩
      cases hp : mlookup s.fill_swaps f.parent_swap_id with
      | none =>
        rw [hp] at hres
        dsimp only [] at hres
        exact absurd hres (by decide)
      | some swap =>
        rw [hp] at hres
        dsimp only [] at hres
        unfold subChecked at hres
        split_ifs at hres <;>
          dsimp only [] at hres <;>
          first
            | cases hres
            | exact absurd hres (by decide)
    · rw [if_pos (by omega)]
      exact ⟨fun _ => (by omega), fun _ => rfl⟩
  · intro s caller now sid secret amt sw hm h1 h2
    unfold Fusion.claim_swap
    rw [hm]
    dsimp only []
    rw [if_neg (by simp [h1]), if_neg (by simp [h2])]
    by_cases ht : now < sw.timelock
    · rw [if_neg (by simp [ht])]
      refine ⟨fun hres => ?_, fun h' => absurd h' (by omega)⟩
      split_ifs at hres <;>
        first
          | exact absurd hres (by decide)
          | cases hres
    · rw [if_pos (by simpa using ht)]
      exact ⟨fun _ => (by omega), fun _ => rfl⟩
  · intro s caller now sid sw hm h1 h2
    unfold Fusion.refund_swap
    rw [hm]
    dsimp only []
    rw [if_neg (by simp [h1]), if_neg (by simp [h2])]
    by_cases ht : sw.timelock ≤ now
    · rw [if_neg (by simp [ht])]
      refine ⟨fun hres => ?_, fun h' => absurd h' (by omega)⟩
      split_ifs at hres <;>
        first
          | exact absurd hres (by decide)
          | cases hres
    · rw [if_pos ht]
      exact ⟨fun _ => (by omega), fun _ => rfl⟩

/-- Witness for C4 at concrete inputs: an open escrow with deadline 10 —
withdraw at time 11 fails exactly as "Timelock expired"; refund at time 10
fails "Timelock not expired" and refund at 11 succeeds; the mirrored
fusion boundary at a swap with deadline 10: claim at 10 fails
"Swap expired". -/
theorem c4_time_gating_witness :
    (HtlcNear.withdraw
      ⟨[("cid", ⟨"alice", "bob", 5, List.replicate 32 0, 10, false, false,
        "e"⟩)], [], [], [], "o", []⟩ "bob" 11 "cid" []
      = .error "Timelock expired" ↔ (10 : Nat) < 11) ∧
    ((HtlcNear.refund
      ⟨[("cid", ⟨"alice", "bob", 5, List.replicate 32 0, 10, false, false,
        "e"⟩)], [], [], [], "o", []⟩ "alice" 10 "cid"
      = .error "Timelock not expired" ↔ (10 : Nat) ≤ 10) ∧
     ((∃ r, HtlcNear.refund
      ⟨[("cid", ⟨"alice", "bob", 5, List.replicate 32 0, 10, false, false,
        "e"⟩)], [], [], [], "o", []⟩ "alice" 10 "cid" = .ok r)
      ↔ (10 : Nat) < 10)) ∧
    (Fusion.claim_swap
      ⟨[("sid", ⟨"alice", "bob", 10, 10, 0, none, "h", 10, none, false,
        false, none, []⟩)], [], "o", []⟩ "bob" 10 "sid" "s" 1
      = .error "Swap expired" ↔ (10 : Nat) ≤ 10) :=
  ⟨c4_time_gating_amended.1 _ "bob" 11 "cid" []
     ⟨"alice", "bob", 5, List.replicate 32 0, 10, false, false, "e"⟩
     (by decide) (by decide) (by decide) (by decide),
   c4_time_gating_amended.2.1 _ "alice" 10 "cid"
     ⟨"alice", "bob", 5, List.replicate 32 0, 10, false, false, "e"⟩
     (by decide) (by decide) (by decide) (by decide),
   c4_time_gating_amended.2.2.2.2.1 _ "bob" 10 "sid" "s" 1
     ⟨"alice", "bob", 10, 10, 0, none, "h", 10, none, false, false, none,
      []⟩ (by decide) (by decide) (by decide)⟩

/-- **C6 counterexample**: the claim as stated is false on the code.  In
`fusion-htlc`, `claim_swap` never checks the caller: after `alice` locks
10 for receiver `bob`, the account `mallory` (which is not the receiver)
presents the correct secret before the deadline on the open swap and the
claim *succeeds*, paying the 10 to `mallory`. -/
theorem c6_counterexample :
    (Fusion.fstep
      (Fusion.frun (Fusion.init "o") [] [Fusion.exInitiate]).1
      (Fusion.FCall.claim "mallory" 2 Fusion.exSwapId Fusion.exSecret
        10)).map (fun r => r.2)
      = .ok [⟨.swapT, Fusion.exSwapId, "mallory", 10⟩] ∧
    (mlookup ((Fusion.frun (Fusion.init "o") []
        [Fusion.exInitiate]).1).swaps Fusion.exSwapId).map
      (fun sw => sw.receiver) = some "bob" ∧
    "mallory" ≠ "bob" := by
  refine ⟨?_, ?_, by decide⟩
  · set_option maxRecDepth 1000000 in decide
  · set_option maxRecDepth 1000000 in decide

/-- **C6** (amended).  In `htlc-near`, the claim-family operations are
receiver-gated: with the escrow (resp. fill) open, a caller that is not
the stored receiver always fails with "Only receiver can withdraw"
(resp. "Only receiver can complete fill"), regardless of the secret and
the time.  In `fusion-htlc`, `claim_swap` has no caller check at all: any
caller presenting the correct secret on an open, unexpired swap with a
valid amount succeeds, and the payout is transferred to that caller. -/
theorem c6_claim_authorization_amended :
    (∀ (s : HtlcNear.State) caller now cid (pre : List Nat) c,
      mlookup s.contracts cid = some c → c.withdrawn = false →
      c.refunded = false → caller ≠ c.receiver →
      HtlcNear.withdraw s caller now cid pre
        = .error "Only receiver can withdraw") ∧
    (∀ (s : HtlcNear.State) caller now fid (pre : List Nat) ethTx f,
      mlookup s.fills fid = some f → f.completed = false →
      f.refunded = false → caller ≠ f.receiver →
      HtlcNear.complete_fill s caller now fid pre ethTx
        = .error "Only receiver can complete fill") ∧
    (∀ (s : Fusion.State) caller now sid secret amt sw,
      mlookup s.swaps sid = some sw → sw.is_completed = false →
      sw.is_refunded = false → now < sw.timelock →
      Fusion.hash_secret secret = sw.hashlock → 0 < amt →
      amt ≤ sw.amount_remaining →
      Fusion.is_claiming_in_progress s sid = false →
      ∃ s', Fusion.claim_swap s caller now sid secret amt
        = .ok (s', [⟨.swapT, sid, caller, amt⟩])) := by
  refine ⟨?_, ?_, ?_⟩
  · intro s caller now cid pre c hm hw hr hcall
    unfold HtlcNear.withdraw
    rw [hm]
    dsimp only []
    rw [if_neg (by simp [hw]), if_neg (by simp [hr]), if_pos hcall]
  · intro s caller now fid pre ethTx f hm hw hr hcall
    unfold HtlcNear.complete_fill
    rw [hm]
    dsimp only []
    rw [if_neg (by simp [hw]), if_neg (by simp [hr]), if_pos hcall]
  · intro s caller now sid secret amt sw hm h1 h2 ht hsec hamt hle hprog
    unfold Fusion.claim_swap
    rw [hm]
    dsimp only []
    rw [if_neg (by simp [h1]), if_neg (by simp [h2]),
        if_neg (by simp [ht]), if_neg (by simp [hsec]),
        if_neg (by omega), if_neg (by omega), if_neg (by simp [hprog]),
        if_neg (by omega)]
    exact ⟨_, rfl⟩

/-- Witness for C6 at concrete inputs: `mallory` cannot withdraw an
`htlc-near` escrow held for `bob` even with a correct setup, and any
caller can claim an open fusion swap whose commitment matches the
presented secret, with the payout sent to that caller. -/
theorem c6_claim_authorization_witness :
    HtlcNear.withdraw
      ⟨[("cid", ⟨"alice", "bob", 5, List.replicate 32 0, 10, false, false,
        "e"⟩)], [], [], [], "o", []⟩ "mallory" 2 "cid" []
      = .error "Only receiver can withdraw" ∧
    ∃ s', Fusion.claim_swap
      ⟨[("sid", ⟨"alice", "bob", 10, 10, 0, none, Fusion.hash_secret "s",
        1000, none, false, false, none, []⟩)], [], "o", []⟩
      "mallory" 2 "sid" "s" 10
      = .ok (s', [⟨.swapT, "sid", "mallory", 10⟩]) :=
  ⟨c6_claim_authorization_amended.1 _ "mallory" 2 "cid" []
     ⟨"alice", "bob", 5, List.replicate 32 0, 10, false, false, "e"⟩
     (by decide) (by decide) (by decide) (by decide),
   c6_claim_authorization_amended.2.2 _ "mallory" 2 "sid" "s" 10
     ⟨"alice", "bob", 10, 10, 0, none, Fusion.hash_secret "s", 1000, none,
      false, false, none, []⟩
     (by decide) (by decide) (by decide) (by decide) rfl (by decide)
     (by decide) (by decide)⟩

/-- **C5** (confirmed).  Commitment soundness across every secret-checking
operation.  With the other preconditions held: `withdraw`,
`complete_partial_fill` (the spec's `completeFill`),
`complete_cross_chain_swap` and `complete_eth_swap` (the spec's
`complete`) succeed exactly when `SHA-256(secret) = commitment` —
byte-for-byte equality of the full 32-byte digest in `htlc-near`, the
full lowercase-hex digest string in `fusion-htlc` — and fail with
"Invalid preimage" / "Invalid secret" exactly otherwise; `claim_swap`
fails with "Invalid secret" exactly when the hex digest of the secret
differs from the stored commitment; `verify_secret` is exact string
equality with the full digest; the compared hex commitment has length 64;
and `check_preimage` is exact byte equality against the stored hashlock.
No prefix or partial match is ever accepted: the comparisons are
equalities of the whole digest. -/
theorem c5_commitment_soundness :
    (∀ (s : HtlcNear.State) caller now cid (pre : List Nat) c,
      mlookup s.contracts cid = some c → c.withdrawn = false →
      c.refunded = false → caller = c.receiver → now ≤ c.timelock →
      (((∃ r, HtlcNear.withdraw s caller now cid pre = .ok r)
         ↔ sha256 pre = c.hashlock) ∧
       (HtlcNear.withdraw s caller now cid pre = .error "Invalid preimage"
         ↔ sha256 pre ≠ c.hashlock))) ∧
    (∀ (s : Fusion.State) caller now sid secret amt sw,
      mlookup s.swaps sid = some sw → sw.is_completed = false →
      sw.is_refunded = false → now < sw.timelock →
      (Fusion.claim_swap s caller now sid secret amt
        = .error "Invalid secret"
        ↔ Fusion.hash_secret secret ≠ sw.hashlock)) ∧
    (∀ secret hashlock, Fusion.verify_secret secret hashlock = true
      ↔ Fusion.hash_secret secret = hashlock) ∧
    (∀ secret, (Fusion.hash_secret secret).length = 64) ∧
    (∀ (s : HtlcNear.State) cid (pre : List Nat) c,
      mlookup s.contracts cid = some c →
      (HtlcNear.check_preimage s cid pre = true
        ↔ sha256 pre = c.hashlock)) ∧
    (∀ (s : HtlcNear.State) caller now fid (pre : List Nat) ethTx f,
      mlookup s.fills fid = some f → f.completed = false →
      f.refunded = false → caller = f.receiver → now ≤ f.timelock →
      (((∃ r, HtlcNear.complete_fill s caller now fid pre ethTx = .ok r)
         ↔ sha256 pre = f.hashlock) ∧
       (HtlcNear.complete_fill s caller now fid pre ethTx
         = .error "Invalid preimage" ↔ sha256 pre ≠ f.hashlock))) ∧
    (∀ (s : HtlcNear.State) caller now cid (pre : List Nat) ethTx c,
      mlookup s.cross_chain_contracts cid = some c → c.withdrawn = false →
      c.refunded = false → caller = c.receiver → now ≤ c.timelock →
      (((∃ r, HtlcNear.complete_cross_chain_swap s caller now cid pre
          ethTx = .ok r) ↔ sha256 pre = c.hashlock) ∧
       (HtlcNear.complete_cross_chain_swap s caller now cid pre ethTx
         = .error "Invalid preimage" ↔ sha256 pre ≠ c.hashlock))) ∧
    (∀ (s : Fusion.State) now sid secret recip req,
      mlookup s.eth_swap_requests sid = some req → now ≤ req.timelock →
      (((∃ r, Fusion.complete_eth_swap s now sid secret recip = .ok r)
         ↔ Fusion.hash_secret secret = req.hashlock) ∧
       (Fusion.complete_eth_swap s now sid secret recip
         = .error "Invalid secret"
         ↔ Fusion.hash_secret secret ≠ req.hashlock))) := by
  refine ⟨?_, ?_, ?_, ?_, ?_, ?_, ?_, ?_⟩
  · intro s caller now cid pre c hm hw hr hcall ht
    unfold HtlcNear.withdraw
    rw [hm]
    dsimp only []
    rw [if_neg (by simp [hw]), if_neg (by simp [hr]),
        if_neg (by simp [hcall]), if_neg (by omega)]
    by_cases hpre : sha256 pre = c.hashlock
    · rw [if_neg (by simp [hpre])]
      exact ⟨⟨fun _ => hpre, fun _ => ⟨_, rfl⟩⟩,
             ⟨fun hres => (by cases hres), fun hne => absurd hpre hne⟩⟩
    · rw [if_pos hpre]
      refine ⟨⟨fun h' => ?_, fun he => absurd he hpre⟩,
              ⟨fun _ => hpre, fun _ => rfl⟩⟩
      obtain ⟨r, hr'⟩ := h'
      cases hr'
  · intro s caller now sid secret amt sw hm h1 h2 ht
    unfold Fusion.claim_swap
    rw [hm]
    dsimp only []
    rw [if_neg (by simp [h1]), if_neg (by simp [h2]),
        if_neg (by simp [ht])]
    by_cases hsec : Fusion.hash_secret secret = sw.hashlock
    · rw [if_neg (by simp [hsec])]
      refine ⟨fun hres => ?_, fun hne => absurd hsec hne⟩
      split_ifs at hres <;>
        first
          | cases hres
          | exact absurd hres (by decide)
    · rw [if_pos hsec]
      exact ⟨fun _ => hsec, fun _ => rfl⟩
  · intro secret hashlock
    unfold Fusion.verify_secret
    exact ⟨fun h => eq_of_beq h, fun h => by simp [h]⟩
  · intro secret
    unfold Fusion.hash_secret
    rw [hexEncode_length, sha256_length]
  · intro s cid pre c hm
    unfold HtlcNear.check_preimage
    rw [hm]
    simp
  · intro s caller now fid pre ethTx f hm hw hr hcall ht
    unfold HtlcNear.complete_fill
    rw [hm]
    dsimp only []
    rw [if_neg (by simp [hw]), if_neg (by simp [hr]),
        if_neg (by simp [hcall]), if_neg (by omega)]
    by_cases hpre : sha256 pre = f.hashlock
    · rw [if_neg (by simp [hpre])]
      exact ⟨⟨fun _ => hpre, fun _ => ⟨_, rfl⟩⟩,
             ⟨fun hres => (by cases hres), fun hne => absurd hpre hne⟩⟩
    · rw [if_pos hpre]
      refine ⟨⟨fun h' => ?_, fun he => absurd he hpre⟩,
              ⟨fun _ => hpre, fun _ => rfl⟩⟩
      obtain ⟨r, hr'⟩ := h'
      cases hr'
  · intro s caller now cid pre ethTx c hm hw hr hcall ht
    unfold HtlcNear.complete_cross_chain_swap
    rw [hm]
    dsimp only []
    rw [if_neg (by simp [hw]), if_neg (by simp [hr]),
        if_neg (by simp [hcall]), if_neg (by omega)]
    by_cases hpre : sha256 pre = c.hashlock
    · rw [if_neg (by simp [hpre])]
      exact ⟨⟨fun _ => hpre, fun _ => ⟨_, rfl⟩⟩,
             ⟨fun hres => (by cases hres), fun hne => absurd hpre hne⟩⟩
    · rw [if_pos hpre]
      refine ⟨⟨fun h' => ?_, fun he => absurd he hpre⟩,
              ⟨fun _ => hpre, fun _ => rfl⟩⟩
      obtain ⟨r, hr'⟩ := h'
      cases hr'
  · intro s now sid secret recip req hm ht
    unfold Fusion.complete_eth_swap
    rw [hm]
    dsimp only []
    by_cases hsec : Fusion.hash_secret secret = req.hashlock
    · rw [if_neg (by simp [hsec]), if_neg (by omega)]
      exact ⟨⟨fun _ => hsec, fun _ => ⟨_, rfl⟩⟩,
             ⟨fun hres => (by cases hres), fun hne => absurd hsec hne⟩⟩
    · rw [if_pos hsec]
      refine ⟨⟨fun h' => ?_, fun he => absurd he hsec⟩,
              ⟨fun _ => hsec, fun _ => rfl⟩⟩
      obtain ⟨r, hr'⟩ := h'
      cases hr'

/-- Witness for C5 at concrete inputs: an open escrow and an open fill,
each with the all-zero 32-byte commitment, checked against the empty
preimage in `withdraw` and `complete_partial_fill`; the sample secret
against its own commitment in `verify_secret`; and the 64-character
length of a concrete commitment. -/
theorem c5_commitment_soundness_witness :
    (((∃ r, HtlcNear.withdraw
        ⟨[("cid", ⟨"alice", "bob", 5, List.replicate 32 0, 10, false,
          false, "e"⟩)], [], [], [], "o", []⟩ "bob" 2 "cid" [] = .ok r)
       ↔ sha256 [] = List.replicate 32 0) ∧
     (HtlcNear.withdraw
        ⟨[("cid", ⟨"alice", "bob", 5, List.replicate 32 0, 10, false,
          false, "e"⟩)], [], [], [], "o", []⟩ "bob" 2 "cid" []
        = .error "Invalid preimage" ↔ sha256 [] ≠ List.replicate 32 0)) ∧
    (Fusion.verify_secret "s" (Fusion.hash_secret "s") = true
      ↔ Fusion.hash_secret "s" = Fusion.hash_secret "s") ∧
    (Fusion.hash_secret "s").length = 64 ∧
    (((∃ r, HtlcNear.complete_fill
        ⟨[], [], [],
         [("fid", ⟨"fid", "sid", "alice", "bob", 400, List.replicate 32 0,
           10, false, false, "e", none, 2⟩)], "o", []⟩ "bob" 2 "fid" []
        "tx" = .ok r)
       ↔ sha256 [] = List.replicate 32 0) ∧
     (HtlcNear.complete_fill
        ⟨[], [], [],
         [("fid", ⟨"fid", "sid", "alice", "bob", 400, List.replicate 32 0,
           10, false, false, "e", none, 2⟩)], "o", []⟩ "bob" 2 "fid" []
        "tx" = .error "Invalid preimage"
       ↔ sha256 [] ≠ List.replicate 32 0)) :=
  ⟨c5_commitment_soundness.1 _ "bob" 2 "cid" []
     ⟨"alice", "bob", 5, List.replicate 32 0, 10, false, false, "e"⟩
     (by decide) (by decide) (by decide) (by decide) (by decide),
   c5_commitment_soundness.2.2.1 "s" (Fusion.hash_secret "s"),
   c5_commitment_soundness.2.2.2.1 "s",
   c5_commitment_soundness.2.2.2.2.2.1 _ "bob" 2 "fid" [] "tx"
     ⟨"fid", "sid", "alice", "bob", 400, List.replicate 32 0, 10, false,
      false, "e", none, 2⟩
     (by decide) (by decide) (by decide) (by decide) (by decide)⟩

/-- **C7 counterexample**: the claim as stated is false on the code.
`create_htlc` performs no existence check on the derived id: two creations
with identical sender, receiver, amount and creation time (distinct only
in their commitments) both succeed with the same id, and the second
silently replaces the first record — instead of failing with a conflict
error. -/
theorem c7_counterexample :
    ((HtlcNear.create_htlc (HtlcNear.init "o") "alice" 5 1 "bob"
        (List.replicate 32 0) 10 "e").bind (fun r =>
      HtlcNear.create_htlc r.1 "alice" 5 1 "bob"
        (List.replicate 32 1) 10 "e")).map
      (fun r => (r.2, (mlookup r.1.contracts "alice-bob-5-1").map
        (fun c => c.hashlock)))
      = .ok ("alice-bob-5-1", some (List.replicate 32 1)) := by
  decide

/-- **C7** (amended).  Only `initiate_swap` in `fusion-htlc` checks the
derived id against its store and fails ("Swap already exists") when it is
already bound.  Every other create-style operation performs no such check:
`create_htlc`, `create_cross_chain_htlc`, `create_partial_fill_swap`,
`create_partial_fill` and `request_eth_swap` succeed on *any* state whose
validation-arguments are acceptable, deriving the same deterministic id
for identical defining fields at the same creation time and silently
overwriting an existing record under that id. -/
theorem c7_id_collision_amended :
    (∀ (s : Fusion.State) caller dep now recv hl tl ethTx sw,
      0 < dep → now < tl → hl.length = 64 →
      mlookup s.swaps (Fusion.generate_swap_id caller recv hl tl)
        = some sw →
      Fusion.initiate_swap s caller dep now recv hl tl ethTx
        = .error "Swap already exists") ∧
    (∀ (s : HtlcNear.State) caller dep now recv (hl : List Nat) tl eth,
      0 < dep → now < tl → hl ≠ [] → hl.length = 32 →
      HtlcNear.create_htlc s caller dep now recv hl tl eth
        = .ok ({ s with contracts := (minsert s.contracts
            (HtlcNear.htlcId caller recv dep now)
            ⟨caller, recv, dep, hl, tl, false, false, eth⟩) },
          HtlcNear.htlcId caller recv dep now)) ∧
    (∀ (s : Fusion.State) caller dep now er et hl tl ps,
      0 < dep → now < tl → hl.length = 64 → er.length = 42 →
      er.startsWith "0x" = true →
      Fusion.request_eth_swap s caller dep now er et hl tl ps
        = .ok ({ s with eth_swap_requests := (minsert s.eth_swap_requests
            (Fusion.ethReqId now)
            ⟨Fusion.ethReqId now, caller, er, dep, none, et, hl, tl,
             ps⟩) },
          Fusion.ethReqId now)) ∧
    (∀ (s : HtlcNear.State) caller dep now recv (hl : List Nat) tl eth,
      0 < dep → now < tl → hl ≠ [] → hl.length = 32 → eth ≠ "" →
      HtlcNear.create_cross_chain_htlc s caller dep now recv hl tl eth
        = .ok ({ s with cross_chain_contracts :=
            (minsert s.cross_chain_contracts
              ("cc-" ++ HtlcNear.htlcId caller recv dep now)
              ⟨caller, recv, dep, hl, tl, false, false, eth, none⟩) },
          "cc-" ++ HtlcNear.htlcId caller recv dep now)) ∧
    (∀ (s : HtlcNear.State) caller now recv total eth tl,
      0 < total → now < tl → eth ≠ "" →
      HtlcNear.create_fill_swap s caller now recv total eth tl
        = .ok ({ s with fill_swaps := (minsert s.fill_swaps
            (HtlcNear.fillSwapId caller total now)
            ⟨HtlcNear.fillSwapId caller total now, caller, recv, total, 0,
             total, eth, tl, false, now, 0⟩) },
          HtlcNear.fillSwapId caller total now)) ∧
    (∀ (s : HtlcNear.State) caller dep now swapId (hl : List Nat) amt swap,
      mlookup s.fill_swaps swapId = some swap → caller = swap.sender →
      swap.completed = false → 0 < amt → amt ≤ swap.remaining_amount →
      dep = amt → hl ≠ [] → hl.length = 32 →
      HtlcNear.create_fill s caller dep now swapId hl amt
        = .ok ({ s with
            fills := (minsert s.fills (HtlcNear.fillId swapId amt now)
              ⟨HtlcNear.fillId swapId amt now, swapId, caller,
               swap.receiver, amt, hl, swap.timelock, false, false,
               swap.eth_address, none, now⟩),
            fill_swaps := (minsert s.fill_swaps swapId
              { swap with
                filled_amount := swap.filled_amount + amt,
                remaining_amount := swap.remaining_amount - amt,
                fill_count := swap.fill_count + 1,
                completed := if swap.remaining_amount - amt = 0 then true
                             else swap.completed }) },
          HtlcNear.fillId swapId amt now)) := by
  refine ⟨?_, ?_, ?_, ?_, ?_, ?_⟩
  · intro s caller dep now recv hl tl ethTx sw hdep htl hlen hm
    unfold Fusion.initiate_swap
    dsimp only []
    rw [if_neg (by omega), if_neg (by omega), if_neg (by omega),
        if_pos (by simp [hm])]
  · intro s caller dep now recv hl tl eth hdep htl hhl hlen
    unfold HtlcNear.create_htlc
    rw [if_neg (by omega), if_neg (by omega), if_neg hhl,
        if_neg (by omega)]
  · intro s caller dep now er et hl tl ps hdep htl hlen h42 h0x
    unfold Fusion.request_eth_swap
    rw [if_neg (by omega), if_neg (by omega), if_neg (by omega),
        if_neg (by simp [h42, h0x])]
  · intro s caller dep now recv hl tl eth hdep htl hhl hlen heth
    unfold HtlcNear.create_cross_chain_htlc
    rw [if_neg (by omega), if_neg (by omega), if_neg hhl,
        if_neg (by omega), if_neg heth]
  · intro s caller now recv total eth tl htot htl heth
    unfold HtlcNear.create_fill_swap
    rw [if_neg (by omega), if_neg (by omega), if_neg heth]
  · intro s caller dep now swapId hl amt swap hm hsend hcomp hamt hle hdep
      hhl hlen
    unfold HtlcNear.create_fill
    rw [hm]
    dsimp only []
    rw [if_neg (by simp [hsend]), if_neg (by simp [hcomp]),
        if_neg (by omega), if_neg (by omega), if_neg (by omega),
        if_neg hhl, if_neg (by omega)]

/-- Witness for C7 at concrete inputs: `initiate_swap` on a state already
holding the derived id fails "Swap already exists"; `create_htlc` on a
state already holding the derived id succeeds and overwrites. -/
theorem c7_id_collision_witness :
    Fusion.initiate_swap
      (⟨minsert []
          (Fusion.generate_swap_id "alice" "bob"
            (String.mk (List.replicate 64 'a')) 10)
          ⟨"alice", "bob", 5, 5, 0, none,
           String.mk (List.replicate 64 'a'), 10, none, false, false, none,
           []⟩, [], "o", []⟩ : Fusion.State)
      "alice" 5 1 "bob" (String.mk (List.replicate 64 'a')) 10 none
      = .error "Swap already exists" ∧
    HtlcNear.create_htlc
      (⟨[("alice-bob-5-1", ⟨"alice", "bob", 5, List.replicate 32 0, 10,
          false, false, "e"⟩)], [], [], [], "o", []⟩ : HtlcNear.State)
      "alice" 5 1 "bob" (List.replicate 32 1) 10 "e"
      = .ok (⟨[("alice-bob-5-1", ⟨"alice", "bob", 5, List.replicate 32 1,
          10, false, false, "e"⟩),
          ("alice-bob-5-1", ⟨"alice", "bob", 5, List.replicate 32 0, 10,
          false, false, "e"⟩)], [], [], [], "o", []⟩, "alice-bob-5-1") :=
  ⟨c7_id_collision_amended.1 _ "alice" 5 1 "bob"
     (String.mk (List.replicate 64 'a')) 10 none
     ⟨"alice", "bob", 5, 5, 0, none, String.mk (List.replicate 64 'a'), 10,
      none, false, false, none, []⟩
     (by decide) (by decide) (by decide) (mlookup_minsert_self _ _ _),
   c7_id_collision_amended.2.1 _ "alice" 5 1 "bob" (List.replicate 32 1)
     10 "e" (by decide) (by decide) (by decide) (by decide)⟩

/-- **C8** (confirmed).  Strong atomicity on failure: a NEAR panic aborts
the call and the runtime reverts every write of that call, which the
embedding reflects — in the trace semantics of both contracts, a call that
returns an error contributes no transfers and leaves every store
byte-for-byte unchanged (the run continues from the exact pre-state).
Additionally the spec's concrete scenario: `create_partial_fill` with
`fill_amount` exceeding `remaining_amount` fails with the invalid-amount
error "Fill amount exceeds remaining amount" (and, being an error, changes
nothing). -/
theorem c8_atomicity_on_failure :
    (∀ (s : HtlcNear.State) (c : HtlcNear.HCall) e cs,
      HtlcNear.hstep s c = .error e →
      HtlcNear.hrun s (c :: cs) = HtlcNear.hrun s cs) ∧
    (∀ (s : Fusion.State) (c : Fusion.FCall) e used cs,
      Fusion.fstep s c = .error e →
      Fusion.frun s used (c :: cs) = Fusion.frun s used cs) ∧
    (∀ (s : HtlcNear.State) caller dep now swapId (hl : List Nat) amt swap,
      mlookup s.fill_swaps swapId = some swap → caller = swap.sender →
      swap.completed = false → 0 < amt → swap.remaining_amount < amt →
      HtlcNear.create_fill s caller dep now swapId hl amt
        = .error "Fill amount exceeds remaining amount") := by
  refine ⟨?_, ?_, ?_⟩
  · intro s c e cs h
    simp only [HtlcNear.hrun, h]
  · intro s c e used cs h
    simp only [Fusion.frun, h]
  · intro s caller dep now swapId hl amt swap hm hsend hcomp hamt hgt
    unfold HtlcNear.create_fill
    rw [hm]
    dsimp only []
    rw [if_neg (by simp [hsend]), if_neg (by simp [hcomp]),
        if_neg (by omega), if_pos (by omega)]

/-- Witness for C8 at concrete inputs: a withdraw of a nonexistent escrow
fails and drops out of the run without effect, and a fill of 600 against
an order with only 400 remaining fails with the invalid-amount error. -/
theorem c8_atomicity_on_failure_witness :
    HtlcNear.hrun (HtlcNear.init "o")
      [HtlcNear.HCall.withdrawC "x" 0 "nope" []]
      = HtlcNear.hrun (HtlcNear.init "o") [] ∧
    HtlcNear.create_fill
      ⟨[], [],
       [("sid", ⟨"sid", "alice", "bob", 1000, 600, 400, "e", 50, false, 1,
         1⟩)], [], "o", []⟩ "alice" 600 2 "sid" (List.replicate 32 0) 600
      = .error "Fill amount exceeds remaining amount" :=
  ⟨c8_atomicity_on_failure.1 (HtlcNear.init "o")
     (HtlcNear.HCall.withdrawC "x" 0 "nope" []) "Contract does not exist"
     [] (by decide),
   c8_atomicity_on_failure.2.2 _ "alice" 600 2 "sid" (List.replicate 32 0)
     600 ⟨"sid", "alice", "bob", 1000, 600, 400, "e", 50, false, 1, 1⟩
     (by decide) (by decide) (by decide) (by decide) (by decide)⟩
